import Mathlib

/-!
Verification of the EDIFACT CODECO codec of the CDMS---Mantra-Ivoire repository.

The development shallowly embeds the segment-level encoder
(`services/edi_converter.py`), the decoder and validator
(`EDI-CODECO-Generator-API-master/services/edi_parser.py`), the EDI→XML
field mapper (same module) and the compact-profile generator
(`api/edi/codeco_generator_simple.py`).

Python strings are modelled as `List Char`.  The embedding's scope notes:
* `str.upper` / `str.lower` are modelled on ASCII letters (`Char.toUpper`,
  `Char.toLower`); every marker the code matches against is ASCII.
* the regex `\s` is modelled by the ASCII whitespace characters.
* `datetime.strptime(s, "%Y%m%d%H%M%S")` is modelled on its canonical
  branch: a 14-digit string with in-range fields.  CPython additionally
  accepts some shorter, non-zero-padded strings; no property below
  depends on those inputs.
* rendering a possibly-`None` value inside an f-string is `pyStr`
  (`None` prints as the four characters `None`).
-/

namespace Codeco

/-- Character list of a string literal; Python strings are `List Char` here. -/
def S (s : String) : List Char := s.data

/-- ASCII scope of the regex character class `\s` used by
`_normalize_edi_content` and `validate_edi_format`. -/
def pySpace (c : Char) : Bool :=
  c == ' ' || c == '\t' || c == '\n' || c == '\r' || c == '\x0b' || c == '\x0c'

/-- Python `str.strip()`: drop leading and trailing whitespace. -/
def stripWs (l : List Char) : List Char :=
  ((l.dropWhile pySpace).reverse.dropWhile pySpace).reverse

/-- Worker for `collapseWs`; the flag records whether the previous input
character was whitespace (in which case the current run was already
replaced by one space). -/
def collapseAux : Bool → List Char → List Char
  | _, [] => []
  | prev, c :: cs =>
    if pySpace c then
      if prev then collapseAux true cs else ' ' :: collapseAux true cs
    else c :: collapseAux false cs

/-- `re.sub(r'\s+', ' ', l)`: every maximal whitespace run becomes one space. -/
def collapseWs (l : List Char) : List Char := collapseAux false l

/-- Worker for `rmQuoteSp`.  On input without two adjacent whitespace
characters (the output of `collapseWs`), `re.sub(r"\s*'\s*", "'", l)`
deletes exactly the spaces that neighbour a quote; the flag records
whether the previous character was a quote. -/
def rmQuoteSpAux : Bool → List Char → List Char
  | _, [] => []
  | prevQ, c :: cs =>
    if c = ' ' then
      if prevQ ∨ cs.head? = some '\'' then rmQuoteSpAux false cs
      else ' ' :: rmQuoteSpAux false cs
    else c :: rmQuoteSpAux (c = '\'') cs

/-- `re.sub(r"\s*'\s*", "'", l)` on collapsed input. -/
def rmQuoteSp (l : List Char) : List Char := rmQuoteSpAux false l

/-- `EDIFACTParser._normalize_edi_content`. -/
def normalizeEdi (l : List Char) : List Char := rmQuoteSp (collapseWs (stripWs l))

/-- Python `str.split(sep)` for a one-character separator: keeps empty
fragments, `[] ↦ [[]]`. -/
def splitCh (sep : Char) : List Char → List (List Char)
  | [] => [[]]
  | c :: cs =>
    if c = sep then [] :: splitCh sep cs
    else
      match splitCh sep cs with
      | [] => [[c]]
      | g :: gs => (c :: g) :: gs

/-- `pat` is a prefix of the second list (Boolean). -/
def isPre : List Char → List Char → Bool
  | [], _ => true
  | a :: as, l =>
    match l with
    | [] => false
    | b :: bs => a == b && isPre as bs

/-- Python `pat in l` (substring containment). -/
def hasSub (pat : List Char) : List Char → Bool
  | [] => pat.isEmpty
  | c :: cs => isPre pat (c :: cs) || hasSub pat cs

/-- Occurrences of `pat` in `l` counted at every start position; for the
patterns counted below (`NAD+`) this coincides with Python `str.count`
because they cannot overlap themselves. -/
def countSub (pat : List Char) : List Char → Nat
  | [] => 0
  | c :: cs => (if isPre pat (c :: cs) then 1 else 0) + countSub pat cs

/-- `l.startswith(pat)` / tag test on a rendered segment. -/
def startsWithL (pat l : List Char) : Bool := isPre pat l

/-- Python `str.upper` on the ASCII range. -/
def asciiUpper (l : List Char) : List Char := l.map Char.toUpper

/-- Python `str.lower` on the ASCII range. -/
def asciiLower (l : List Char) : List Char := l.map Char.toLower

/-- `str.replace('ft', '')` specialised to the pattern used by the
compact generator: left-to-right, non-overlapping. -/
def removeFt : List Char → List Char
  | [] => []
  | 'f' :: 't' :: rest => removeFt rest
  | c :: rest => c :: removeFt rest

/-- Rendering of a possibly-`None` Python value in an f-string. -/
def pyStr : Option (List Char) → List Char
  | none => S "None"
  | some s => s

/-- Python truthiness of a possibly-`None` string. -/
def pyTruthy : Option (List Char) → Bool
  | none => false
  | some s => !s.isEmpty

/-- Decimal rendering of a natural number (`f"{n}"`). -/
def natStr (n : Nat) : List Char := Nat.toDigits 10 n

/-- Python `sep.join(parts)`. -/
def joinSep (sep : List Char) : List (List Char) → List Char
  | [] => []
  | [x] => x
  | x :: y :: rest => x ++ (sep ++ joinSep sep (y :: rest))

/-! ## Segment model (`EDIFACTSegment`) -/

/-- One EDIFACT segment: tag plus positional elements
(`EDIFACTSegment.__init__`). -/
structure EdiSegment where
  tag : List Char
  elements : List (List Char)
deriving DecidableEq, Repr

/-- Python list subscription `xs[i]` with an `int` index: nonnegative
indices address from the front, negative ones from the back, anything
else raises `IndexError`.  `d0` is a dummy used only at positions the
bounds checks have already validated. -/
def pyListIndex (d0 : List Char) (xs : List (List Char)) (i : Int) :
    Except (List Char) (List Char) :=
  if 0 ≤ i then
    if i.toNat < xs.length then .ok (xs.getD i.toNat d0)
    else .error (S "IndexError: list index out of range")
  else
    if (-i).toNat ≤ xs.length then .ok (xs.getD (xs.length - (-i).toNat) d0)
    else .error (S "IndexError: list index out of range")

/-- `EDIFACTSegment.get_element`:
`self.elements[index] if index < len(self.elements) else default`. -/
def getElementI (s : EdiSegment) (i : Int) (default : List Char) :
    Except (List Char) (List Char) :=
  if i < (s.elements.length : Int) then pyListIndex [] s.elements i
  else .ok default

/-- `EDIFACTSegment.get_composite`: split the element at `ei` on `:` and
subscript the components at `ci` (an empty element yields no components). -/
def getCompositeI (s : EdiSegment) (ei ci : Int) (default : List Char) :
    Except (List Char) (List Char) := do
  let e ← getElementI s ei []
  let comps := if e = [] then [] else splitCh ':' e
  if ci < (comps.length : Int) then pyListIndex [] comps ci
  else .ok default

/-- Total variant of `get_element` at a nonnegative literal index, the
only way the parser calls it; `getElementI_nonneg` relates the two. -/
def getEltN (s : EdiSegment) (i : Nat) : List Char := s.elements.getD i []

/-- Total variant of `get_composite` at nonnegative literal indices. -/
def getCompN (s : EdiSegment) (ei ci : Nat) : List Char :=
  let e := getEltN s ei
  (if e = [] then [] else splitCh ':' e).getD ci []

/-! ## Decoder (`EDIFACTParser`) -/

/-- `_split_into_segments` body for a single raw fragment: strip, skip
empty fragments, split on `+`, strip the parts, skip empty tags. -/
def mkSegment (raw : List Char) : Option EdiSegment :=
  let raw := stripWs raw
  if raw = [] then none
  else
    let parts := splitCh '+' raw
    let tag := stripWs (parts.headI)
    let elements := (parts.drop 1).map stripWs
    if tag = [] then none else some ⟨tag, elements⟩

/-- `EDIFACTParser._split_into_segments`. -/
def splitIntoSegments (content : List Char) : List EdiSegment :=
  (splitCh '\'' content).filterMap mkSegment

/-- The `message_info` group: a Python dict whose keys appear when the
corresponding segment is parsed (`None` = key absent). -/
structure MessageInfo where
  syntax_identifier : Option (List Char)
  syntax_version : Option (List Char)
  sender : Option (List Char)
  receiver : Option (List Char)
  date : Option (List Char)
  time : Option (List Char)
  interchange_control_ref : Option (List Char)
  message_reference_number : Option (List Char)
  message_type : Option (List Char)
  message_version : Option (List Char)
  message_release : Option (List Char)
  controlling_agency : Option (List Char)
  association_assigned_code : Option (List Char)
  segment_count : Option (List Char)
  message_reference_number_trailer : Option (List Char)
  interchange_control_count : Option (List Char)
  interchange_control_ref_trailer : Option (List Char)
deriving DecidableEq, Repr

/-- The `header` group (from BGM). -/
structure HeaderInfo where
  document_name_code : Option (List Char)
  document_number : Option (List Char)
  message_function_code : Option (List Char)
deriving DecidableEq, Repr

/-- The `container_details` group (from COD). -/
structure ContainerDetails where
  container_number : Option (List Char)
  container_size : Option (List Char)
  container_status : Option (List Char)
deriving DecidableEq, Repr

/-- One entry of `parties` (from a NAD segment). -/
structure Party where
  party_qualifier : List Char
  party_identification : List Char
  name_and_address : List Char
deriving DecidableEq, Repr

/-- One entry of `locations` (from a LOC segment). -/
structure LocationInfo where
  location_qualifier : List Char
  location_identification : List Char
deriving DecidableEq, Repr

/-- One entry of `measurements` (from a MEA segment). -/
structure Measurement where
  measurement_purpose_qualifier : List Char
  unit_of_measurement : List Char
  measurement_value : List Char
deriving DecidableEq, Repr

/-- One entry of `dates` (from a DTM segment). -/
structure DateInfo where
  date_time_qualifier : List Char
  date_time : List Char
  date_time_format : List Char
deriving DecidableEq, Repr

/-- `EDIFACTParser._parse_segments` output. -/
structure ParsedData where
  message_info : MessageInfo
  header : HeaderInfo
  container_details : ContainerDetails
  parties : List Party
  locations : List LocationInfo
  measurements : List Measurement
  dates : List DateInfo
deriving DecidableEq, Repr

/-- The empty grouped result the parse loop starts from. -/
def initData : ParsedData :=
  ⟨⟨none, none, none, none, none, none, none, none, none, none, none, none,
    none, none, none, none, none⟩,
   ⟨none, none, none⟩, ⟨none, none, none⟩, [], [], [], []⟩

/-- `_parse_unb_segment` merged into `message_info`. -/
def updUNB (m : MessageInfo) (s : EdiSegment) : MessageInfo :=
  { m with
    syntax_identifier := some (getCompN s 0 0)
    syntax_version := some (getCompN s 0 1)
    sender := some (getEltN s 1)
    receiver := some (getEltN s 2)
    date := some (getEltN s 3)
    time := some (getEltN s 4)
    interchange_control_ref := some (getEltN s 5) }

/-- `_parse_unh_segment` merged into `message_info`. -/
def updUNH (m : MessageInfo) (s : EdiSegment) : MessageInfo :=
  { m with
    message_reference_number := some (getEltN s 0)
    message_type := some (getCompN s 1 0)
    message_version := some (getCompN s 1 1)
    message_release := some (getCompN s 1 2)
    controlling_agency := some (getCompN s 1 3)
    association_assigned_code := some (getCompN s 1 4) }

/-- `_parse_unt_segment` merged into `message_info`. -/
def updUNT (m : MessageInfo) (s : EdiSegment) : MessageInfo :=
  { m with
    segment_count := some (getEltN s 0)
    message_reference_number_trailer := some (getEltN s 1) }

/-- `_parse_unz_segment` merged into `message_info`. -/
def updUNZ (m : MessageInfo) (s : EdiSegment) : MessageInfo :=
  { m with
    interchange_control_count := some (getEltN s 0)
    interchange_control_ref_trailer := some (getEltN s 1) }

/-- `_parse_bgm_segment` merged into `header`. -/
def updBGM (s : EdiSegment) : HeaderInfo :=
  ⟨some (getEltN s 0), some (getEltN s 1), some (getEltN s 2)⟩

/-- `_parse_cod_segment` merged into `container_details`. -/
def updCOD (s : EdiSegment) : ContainerDetails :=
  ⟨some (getEltN s 0), some (getEltN s 1), some (getEltN s 2)⟩

/-- `_parse_nad_segment`. -/
def mkParty (s : EdiSegment) : Party :=
  ⟨getEltN s 0, getEltN s 1, getEltN s 3⟩

/-- `_parse_loc_segment`. -/
def mkLocation (s : EdiSegment) : LocationInfo :=
  ⟨getEltN s 0, getEltN s 1⟩

/-- `_parse_mea_segment`. -/
def mkMeasurement (s : EdiSegment) : Measurement :=
  ⟨getEltN s 0, getEltN s 1, getEltN s 2⟩

/-- `_parse_dtm_segment`. -/
def mkDate (s : EdiSegment) : DateInfo :=
  ⟨getCompN s 0 0, getCompN s 0 1, getCompN s 0 2⟩

/-- The tags the `_parse_segments` dispatch recognises. -/
def knownTag (t : List Char) : Bool :=
  t == S "UNB" || t == S "UNH" || t == S "BGM" || t == S "DTM" ||
  t == S "NAD" || t == S "COD" || t == S "LOC" || t == S "MEA" ||
  t == S "UNT" || t == S "UNZ"

/-- One iteration of the `_parse_segments` dispatch loop. -/
def parseStep (d : ParsedData) (s : EdiSegment) : ParsedData :=
  if s.tag = S "UNB" then { d with message_info := updUNB d.message_info s }
  else if s.tag = S "UNH" then { d with message_info := updUNH d.message_info s }
  else if s.tag = S "BGM" then { d with header := updBGM s }
  else if s.tag = S "DTM" then { d with dates := d.dates ++ [mkDate s] }
  else if s.tag = S "NAD" then { d with parties := d.parties ++ [mkParty s] }
  else if s.tag = S "COD" then { d with container_details := updCOD s }
  else if s.tag = S "LOC" then { d with locations := d.locations ++ [mkLocation s] }
  else if s.tag = S "MEA" then { d with measurements := d.measurements ++ [mkMeasurement s] }
  else if s.tag = S "UNT" then { d with message_info := updUNT d.message_info s }
  else if s.tag = S "UNZ" then { d with message_info := updUNZ d.message_info s }
  else d

/-- `EDIFACTParser._parse_segments`. -/
def parseSegments (segs : List EdiSegment) : ParsedData :=
  segs.foldl parseStep initData

/-- `EDIFACTParser.parse_edi_message`: normalise, split, fail when no
valid segments were found, otherwise run the dispatch loop. -/
def parse_edi_message (content : List Char) :
    Except (List Char) ParsedData :=
  let segs := splitIntoSegments (normalizeEdi content)
  if segs = [] then .error (S "No valid EDIFACT segments found in EDI content")
  else .ok (parseSegments segs)

/-! ## Validator (`validate_edi_format`) -/

/-- `validate_edi_format`: the empty/whitespace check returns at once;
the remaining checks all run and append their own message; the boolean
is `len(errors) == 0`. -/
def validate_edi_format (content : List Char) : Bool × List (List Char) :=
  if content = [] ∨ stripWs content = [] then
    (false, [S "EDI content is empty"])
  else
    let e1 := if hasSub (S "UNB+") content then [] else
      [S "Missing UNB segment (message envelope)"]
    let e2 := if hasSub (S "UNH+") content then [] else
      [S "Missing UNH segment (message header)"]
    let e3 := if hasSub (S "UNT+") content then [] else
      [S "Missing UNT segment (message trailer)"]
    let e4 := if hasSub (S "UNZ+") content then [] else
      [S "Missing UNZ segment (envelope closing)"]
    let e5 := if hasSub (S "CODECO") content then [] else
      [S "Not a CODECO message type"]
    let e6 := if hasSub (S "'") content then [] else
      [S "Missing segment terminators (')"]
    let e7 := match parse_edi_message content with
      | .ok _ => []
      | .error m => [S "Parsing error: " ++ m]
    let errors := e1 ++ e2 ++ e3 ++ e4 ++ e5 ++ e6 ++ e7
    (errors.isEmpty, errors)

/-! ## EDI → XML field mapper (`_map_edi_data_to_xml_structure`) -/

/-- `strftime` values of the `datetime.now()` calls inside the mapper,
passed explicitly since wall-clock time is ambient state in the source. -/
structure NowM where
  full14 : List Char
  date8 : List Char
  time6 : List Char
deriving DecidableEq, Repr

/-- The flat XML field set the mapper produces. -/
structure XmlData where
  yardId : List Char
  client : List Char
  weighbridge_id : List Char
  weighbridge_id_sno : List Char
  transporter : List Char
  container_number : List Char
  container_size : List Char
  status : List Char
  vehicle_number : List Char
  created_date : List Char
  created_time : List Char
  changed_date : List Char
  changed_time : List Char
  created_by : List Char
deriving DecidableEq, Repr

/-- Python `x or y` where `x` is a possibly-`None` string: `None` and the
empty string are falsy. -/
def pyOr (x : Option (List Char)) (y : List Char) : List Char :=
  match x with
  | none => y
  | some s => if s = [] then y else s

/-- The `for party in parties` loop keeps reassigning on every match, so
the last party with the given qualifier wins. -/
def lastPartyWithQ (q : List Char) (ps : List Party) : Option Party :=
  (ps.filter fun p => p.party_qualifier == q).getLast?

/-- The date loop `break`s on the first DTM with qualifier `137`. -/
def firstDtm137 (ds : List DateInfo) : Option DateInfo :=
  ds.find? fun d => d.date_time_qualifier == S "137"

/-- The location loop `break`s on the first LOC with qualifier `87`. -/
def firstLoc87 (ls : List LocationInfo) : Option LocationInfo :=
  ls.find? fun l => l.location_qualifier == S "87"

/-- `_map_edi_data_to_xml_structure`.  Note the `yardId` expression keeps
the source's operator precedence:
`(location_code or to.get(...)) if terminal_operator else ''`. -/
def mapEdiDataToXmlStructure (pd : ParsedData) (now : NowM) : XmlData :=
  let terminal_operator := lastPartyWithQ (S "TO") pd.parties
  let transporter := lastPartyWithQ (S "FR") pd.parties
  let customer := lastPartyWithQ (S "SH") pd.parties
  let creation :=
    match firstDtm137 pd.dates with
    | none => (none, none)
    | some d =>
      if 14 ≤ d.date_time.length then
        (some (d.date_time.take 8), some ((d.date_time.drop 8).take 6))
      else ((none : Option (List Char)), (none : Option (List Char)))
  let creation_date := creation.1
  let creation_time := creation.2
  let location_code := (firstLoc87 pd.locations).map (·.location_identification)
  let cd := pd.container_details
  { yardId :=
      match terminal_operator with
      | some p => pyOr location_code p.party_identification
      | none => []
    client := match customer with | some p => p.party_identification | none => []
    weighbridge_id := S "WB" ++ now.full14
    weighbridge_id_sno := S "00001"
    transporter := match transporter with | some p => p.name_and_address | none => []
    container_number := cd.container_number.getD []
    container_size := cd.container_size.getD []
    status := cd.container_status.getD []
    vehicle_number := S "UNKNOWN"
    created_date := pyOr creation_date now.date8
    created_time := pyOr creation_time now.time6
    changed_date := pyOr creation_date now.date8
    changed_time := pyOr creation_time now.time6
    created_by := S "EDI_IMPORT" }

/-! ## Timestamp parsing and formatting for the descriptive encoder -/

/-- Broken-down timestamp, the result of a successful `strptime`. -/
structure DT where
  year : Nat
  month : Nat
  day : Nat
  hour : Nat
  minute : Nat
  second : Nat
deriving DecidableEq, Repr

/-- Gregorian leap-year rule. -/
def isLeap (y : Nat) : Bool := (y % 4 == 0 && y % 100 != 0) || y % 400 == 0

/-- Days in a month. -/
def daysInMonth (y m : Nat) : Nat :=
  if m = 2 then (if isLeap y then 29 else 28)
  else if m = 4 ∨ m = 6 ∨ m = 9 ∨ m = 11 then 30
  else 31

/-- Decimal value of a digit string. -/
def digitsToNat (l : List Char) : Nat :=
  l.foldl (fun a c => a * 10 + (c.toNat - 48)) 0

/-- `datetime.strptime(s, '%Y%m%d%H%M%S')` on its canonical branch:
a 14-digit string whose fields pass the range checks `strptime` and the
`datetime` constructor enforce (year ≥ 1, month 1–12, day valid for the
month, hour ≤ 23, minute ≤ 59, second ≤ 59).  Anything else raises
`ValueError`. -/
def strptime14 (l : List Char) : Option DT :=
  if l.length = 14 ∧ l.all Char.isDigit then
    let y := digitsToNat (l.take 4)
    let mo := digitsToNat ((l.drop 4).take 2)
    let d := digitsToNat ((l.drop 6).take 2)
    let h := digitsToNat ((l.drop 8).take 2)
    let mi := digitsToNat ((l.drop 10).take 2)
    let se := digitsToNat ((l.drop 12).take 2)
    if 1 ≤ y ∧ 1 ≤ mo ∧ mo ≤ 12 ∧ 1 ≤ d ∧ d ≤ daysInMonth y mo ∧
        h ≤ 23 ∧ mi ≤ 59 ∧ se ≤ 59 then
      some ⟨y, mo, d, h, mi, se⟩
    else none
  else none

/-- The decimal digit character for `n % 10`. -/
def digitChar (n : Nat) : Char := Char.ofNat (48 + n % 10)

/-- Two-digit zero-padded field (`%m`, `%d`, `%H`, `%M`, `%S`, `%y`). -/
def pad2 (n : Nat) : List Char := [digitChar (n / 10), digitChar n]

/-- Four-digit zero-padded year (`%Y`; years of the claims are ≥ 1000,
where platform `strftime` also emits four digits). -/
def pad4 (n : Nat) : List Char :=
  [digitChar (n / 1000), digitChar (n / 100), digitChar (n / 10), digitChar n]

/-- `timestamp.strftime('%Y%m%d%H%M%S')`. -/
def fmtFull (t : DT) : List Char :=
  pad4 t.year ++ pad2 t.month ++ pad2 t.day ++ pad2 t.hour ++
    pad2 t.minute ++ pad2 t.second

/-- `timestamp.strftime('%y%m%d')`. -/
def fmtYYMMDD (t : DT) : List Char :=
  pad2 (t.year % 100) ++ pad2 t.month ++ pad2 t.day

/-- `timestamp.strftime('%H%M')`. -/
def fmtHHMM (t : DT) : List Char := pad2 t.hour ++ pad2 t.minute

/-! ## Descriptive-profile encoder (`services/edi_converter.py`) -/

/-- The `findtext` results of the `Header` children (`None` = child
element absent). -/
structure HeaderFields where
  company_code : Option (List Char)
  plant : Option (List Char)
  customer : Option (List Char)
deriving DecidableEq, Repr

/-- The `findtext` results of the `Item` children. -/
structure ItemFields where
  weighbridge_id : Option (List Char)
  transporter : Option (List Char)
  container_number : Option (List Char)
  container_size : Option (List Char)
  status : Option (List Char)
  vehicle_number : Option (List Char)
  created_date : Option (List Char)
  created_time : Option (List Char)
  created_by : Option (List Char)
deriving DecidableEq, Repr

/-- The source XML document as seen through the extraction block of
`map_xml_to_codeco` (`None` = the `Header`/`Item` container is absent). -/
structure XmlRecord where
  header : Option HeaderFields
  item : Option ItemFields
deriving DecidableEq, Repr

/-- `header.findtext(tag) if header is not None else 'UNKNOWN'`. -/
def hdrGet (r : XmlRecord) (f : HeaderFields → Option (List Char)) :
    Option (List Char) :=
  match r.header with
  | some h => f h
  | none => some (S "UNKNOWN")

/-- `item.findtext(tag) if item is not None else ''`. -/
def itemGet (r : XmlRecord) (f : ItemFields → Option (List Char)) :
    Option (List Char) :=
  match r.item with
  | some it => f it
  | none => some []

/-- `build_unb_segment`. -/
def build_unb_segment (sender receiver : List Char) (ts : DT) : List Char :=
  S "UNB+UNOC:3+" ++ sender ++ S "+" ++ receiver ++ S "+" ++
    fmtYYMMDD ts ++ S "+" ++ fmtHHMM ts ++ S "+" ++ fmtFull ts ++ S "'"

/-- `build_unh_segment`. -/
def build_unh_segment (message_ref_num : List Char) : List Char :=
  S "UNH+" ++ message_ref_num ++ S "+CODECO:D:96A:UN:EANCOM'"

/-- `build_bgm_segment` (its `status` parameter is unused in the source). -/
def build_bgm_segment (container_number : List Char) : List Char :=
  S "BGM+393+" ++ container_number ++ S "+9'"

/-- `build_dtm_segment`. -/
def build_dtm_segment (created_date created_time : List Char) : List Char :=
  S "DTM+137:" ++ created_date ++ created_time ++ S ":204'"

/-- `build_nad_segment`; the name is included only when truthy, and both
id and name are rendered through the f-string (`pyStr`). -/
def build_nad_segment (party_role : List Char)
    (party_id party_name : Option (List Char)) : List Char :=
  if pyTruthy party_name then
    S "NAD+" ++ party_role ++ S "+" ++ pyStr party_id ++ S "++" ++
      pyStr party_name ++ S "'"
  else
    S "NAD+" ++ party_role ++ S "+" ++ pyStr party_id ++ S "'"

/-- `build_cod_segment`. -/
def build_cod_segment (container_number container_size status : List Char) :
    List Char :=
  S "COD+" ++ container_number ++ S "+" ++ container_size ++ S "+" ++
    status ++ S "'"

/-- `build_loc_segment`. -/
def build_loc_segment (location_type location_code : List Char) : List Char :=
  S "LOC+" ++ location_type ++ S "+" ++ location_code ++ S "'"

/-- `build_unt_segment`. -/
def build_unt_segment (segment_count : Nat) (message_ref_num : List Char) :
    List Char :=
  S "UNT+" ++ natStr segment_count ++ S "+" ++ message_ref_num ++ S "'"

/-- `build_unz_segment`. -/
def build_unz_segment (message_count : Nat) (interchange_control_ref : List Char) :
    List Char :=
  S "UNZ+" ++ natStr message_count ++ S "+" ++ interchange_control_ref ++ S "'"

/-- The 11 segments `map_xml_to_codeco` assembles once the timestamp has
parsed. -/
def codecoSegmentList (r : XmlRecord) (ts : DT) : List (List Char) :=
  [ build_unb_segment (pyStr (hdrGet r (·.company_code)))
      (pyStr (hdrGet r (·.plant))) ts,
    build_unh_segment (S "1"),
    build_bgm_segment (pyStr (itemGet r (·.container_number))),
    build_dtm_segment (pyStr (itemGet r (·.created_date)))
      (pyStr (itemGet r (·.created_time))),
    build_nad_segment (S "TO") (hdrGet r (·.plant)) none,
    build_nad_segment (S "FR") (itemGet r (·.transporter))
      (itemGet r (·.transporter)),
    build_nad_segment (S "SH") (hdrGet r (·.customer)) none,
    build_loc_segment (S "87") (pyStr (hdrGet r (·.plant))),
    build_cod_segment (pyStr (itemGet r (·.container_number)))
      (pyStr (itemGet r (·.container_size)))
      (pyStr (itemGet r (·.status))),
    build_unt_segment 11 (S "1"),
    build_unz_segment 1 (fmtFull ts) ]

/-- `map_xml_to_codeco` from the extraction block on: parse the
concatenated timestamp (raising `ValueError` when it is invalid — in
particular when either field is absent, since `None` renders as `None`
inside the f-string), build the segments, join with newlines. -/
def map_xml_to_codeco (r : XmlRecord) : Except (List Char) (List Char) :=
  match strptime14 (pyStr (itemGet r (·.created_date)) ++
      pyStr (itemGet r (·.created_time))) with
  | none => .error (S "ValueError: time data does not match format '%Y%m%d%H%M%S'")
  | some ts => .ok (joinSep (S "\n") (codecoSegmentList r ts))

/-- `convert_xml_to_edi`: wrap any conversion error with context. -/
def convert_xml_to_edi (r : XmlRecord) : Except (List Char) (List Char) :=
  match map_xml_to_codeco r with
  | .ok edi => .ok edi
  | .error e => .error (S "Failed to convert XML to EDI: " ++ e)

/-! ## Compact-profile encoder (`codeco_generator_simple.py`) -/

/-- The request dictionary of `generate_codeco_edi` (`None` = key absent). -/
structure CompactData where
  sender : Option (List Char)
  company_code : Option (List Char)
  receiver : Option (List Char)
  customer : Option (List Char)
  container_number : Option (List Char)
  container_size : Option (List Char)
  container_type : Option (List Char)
  booking_reference : Option (List Char)
  equipment_reference : Option (List Char)
  operation_date : Option (List Char)
  operation_time : Option (List Char)
  location_code : Option (List Char)
  location_details : Option (List Char)
deriving DecidableEq, Repr

/-- `strftime` values of the single `datetime.now(timezone.utc)` call,
passed explicitly since generation time is ambient state in the source. -/
structure NowC where
  mm : List Char
  dd : List Char
  hh : List Char
  mi : List Char
  yymmdd : List Char
  hhmm : List Char
  hhmmss : List Char
  full14 : List Char
deriving DecidableEq, Repr

/-- The `type_mapping` table. -/
def type_mapping (t : List Char) : Option (List Char) :=
  if t = S "dry" then some (S "EM")
  else if t = S "empty" then some (S "EM")
  else if t = S "full" then some (S "FL")
  else if t = S "reefer" then some (S "RE")
  else if t = S "tank" then some (S "TK")
  else if t = S "flat_rack" then some (S "FR")
  else if t = S "open_top" then some (S "OT")
  else none

/-- The `location_details` chosen by the generator: the PIL/ONEY
substring match runs unconditionally, so it overrides an explicitly
supplied value whenever either marker matches. -/
def chosenLocationDetails (data : CompactData) (receiver : List Char) :
    List Char :=
  let customer := asciiUpper (data.customer.getD [])
  let receiver_upper := asciiUpper receiver
  if hasSub (S "PIL") customer ∨ hasSub (S "PIL") receiver_upper then
    S "CIABJ31:STO:ZZZ"
  else if hasSub (S "ONEY") customer ∨ hasSub (S "ONEY") receiver_upper then
    S "CIABJ32:STO:ZZZ"
  else data.location_details.getD (S "CIABJ32:STO:ZZZ")

/-- The segment list `generate_codeco_edi` builds, in order. -/
def generate_codeco_segments (data : CompactData) (now : NowC) :
    List (List Char) :=
  let msg_ref := S "COD" ++ now.mm ++ now.dd ++ now.hh ++ now.mi
  let sender_code := data.sender.getD (data.company_code.getD (S "MANTRA"))
  let control_ref := sender_code ++ now.mm ++ now.dd
  let receiver := data.receiver.getD (data.customer.getD (S "CLIENT"))
  let unb := S "UNB+UNOA:1+" ++ sender_code ++ S "+" ++ receiver ++ S "+" ++
    now.yymmdd ++ S ":" ++ now.hhmm ++ S "+" ++ control_ref ++ S "'"
  let unh := S "UNH+" ++ msg_ref ++ S "+CODECO:D:95B:UN:ITG14'"
  let container_number := data.container_number.getD []
  let bgm := S "BGM+36+" ++ container_number ++ now.mm ++ now.dd ++ now.hh ++
    now.mi ++ S "+9'"
  let ftx := S "FTX+AAI'"
  let tdt := S "TDT+1++3+31'"
  let nad_ms := S "NAD+MS+" ++ sender_code ++ S "'"
  let nad_cf := S "NAD+CF+" ++ receiver ++ S ":160:20'"
  let container_size := removeFt (data.container_size.getD (S "40"))
  let container_type := data.container_type.getD (S "EM")
  let container_type_code :=
    (type_mapping (asciiLower container_type)).getD (asciiUpper container_type)
  let eqd := S "EQD+CN+" ++ container_number ++ S "+" ++ container_size ++
    container_type_code ++ S ":102:5+++4'"
  let rff_bn := if pyTruthy data.booking_reference then
    [S "RFF+BN:" ++ data.booking_reference.getD [] ++ S "'"] else []
  let rff_eqr := if pyTruthy data.equipment_reference ∧
      hasSub (S "ONEY") (asciiUpper (data.customer.getD [])) then
    [S "RFF+EQR:" ++ data.equipment_reference.getD [] ++ S "'"] else []
  let operation_date := data.operation_date.getD now.yymmdd
  let operation_time := data.operation_time.getD now.hhmmss
  let operation_datetime :=
    if operation_date.length = 6 then S "20" ++ operation_date ++ operation_time
    else if operation_date.length = 8 then operation_date ++ operation_time
    else now.full14
  let dtm := S "DTM+203:" ++ operation_datetime ++ S ":203'"
  let location_code0 := data.location_code.getD (S "CIABJ")
  let location_code :=
    if hasSub (S "-") location_code0 ∧ 20 < location_code0.length then
      S "CIABJ"
    else location_code0
  let receiver_for_loc := receiver
  let loc := S "LOC+165+" ++ location_code ++ S ":139:6+" ++
    chosenLocationDetails data receiver_for_loc ++ S "'"
  let cnt := S "CNT+16:1'"
  let built := [unb, unh, bgm, ftx, tdt, nad_ms, nad_cf, eqd] ++
    rff_bn ++ rff_eqr ++ [dtm, loc, cnt]
  let segment_count := built.length - 1 + 1
  let unt := S "UNT+" ++ natStr segment_count ++ S "+" ++ msg_ref ++ S "'"
  let unz := S "UNZ+1+" ++ control_ref ++ S "'"
  built ++ [unt, unz]

/-- `generate_codeco_edi`: segments concatenated without separator. -/
def generate_codeco_edi (data : CompactData) (now : NowC) : List Char :=
  (generate_codeco_segments data now).flatten

/-- The receiver value of the compact generator:
`data.get('receiver', data.get('customer', 'CLIENT'))`. -/
def compactReceiver (data : CompactData) : List Char :=
  data.receiver.getD (data.customer.getD (S "CLIENT"))

/-! ## Concrete inputs used by the claims -/

/-- The spec's scenario record for the descriptive profile, as extracted
from the XML that `generate_xml` produces for it (`Company_Code` is the
constant `CIABJ31`, `Plant` = yardId, `Customer` = client). -/
def sampleDescriptiveRecord : XmlRecord :=
  ⟨some ⟨some (S "CIABJ31"), some (S "419101"), some (S "0001052069")⟩,
   some ⟨some (S "244191001345"), some (S "PROPRE MOYEN"), some (S "PCIU9507070"),
         some (S "40"), some (S "01"), some (S "028-AA-01"),
         some (S "20240425"), some (S "040011"), some (S "HCIHABIBS")⟩⟩

/-- A record whose `Item` element is present but has no children: every
`findtext` on it returns `None`. -/
def recordEmptyItem : XmlRecord :=
  ⟨some ⟨some (S "CIABJ31"), some (S "419101"), some (S "C")⟩,
   some ⟨none, none, none, none, none, none, none, none, none⟩⟩

/-- A record with a valid timestamp whose `Transporter` child is absent. -/
def recordNoTransporter : XmlRecord :=
  ⟨some ⟨some (S "CIABJ31"), some (S "419101"), some (S "C")⟩,
   some ⟨none, none, some (S "PCIU9507070"), some (S "40"), some (S "01"), none,
         some (S "20240425"), some (S "040011"), none⟩⟩

/-- A compact-profile dictionary with no keys. -/
def emptyCompactData : CompactData :=
  ⟨none, none, none, none, none, none, none, none, none, none, none, none, none⟩

/-- Generation-time stamps used for concrete compact-profile runs. -/
def sampleNowC : NowC :=
  ⟨S "02", S "05", S "14", S "28", S "260205", S "1428", S "142800",
   S "20260205142800"⟩

/-- Wall-clock stamps used for concrete mapper runs. -/
def sampleNowM : NowM := ⟨S "20260205142800", S "20260205", S "142800"⟩

/-- A compact request with an explicit `location_details` and a customer
matching the `PIL` partner marker. -/
def pilExplicitDetailsData : CompactData :=
  { emptyCompactData with
    location_details := some (S "XXX:STO:ZZZ")
    customer := some (S "PIL SHIPPING") }

/-- A decoded message with a LOC 87 location but no NAD parties at all. -/
def locOnlyParsed : ParsedData :=
  { initData with locations := [⟨S "87", S "YARD1"⟩] }

/-- The same message with a NAD `TO` party added. -/
def locAndToParsed : ParsedData :=
  { initData with
    locations := [⟨S "87", S "YARD1"⟩]
    parties := [⟨S "TO", S "TOID", []⟩] }

/-- A compact request whose customer contains the `ONEY` marker (in
lower case) and supplies an equipment reference. -/
def oneyEqrData : CompactData :=
  { emptyCompactData with
    customer := some (S "oney line")
    equipment_reference := some (S "SEAL123") }

/-- A compact request whose `location_code` is UUID-shaped. -/
def uuidLocationData : CompactData :=
  { emptyCompactData with
    location_code := some (S "123e4567-e89b-12d3-a456-426614174000") }

/-- No two adjacent whitespace characters. -/
def NoWsRun (l : List Char) : Prop :=
  List.Chain' (fun a b => ¬(pySpace a = true ∧ pySpace b = true)) l

/-! ## Round-trip infrastructure

The decode-of-encode argument works over the wire text produced by the
descriptive encoder.  `FieldOk` is the well-formedness condition on a
single input field: it contains none of the wire metacharacters (the
segment terminator and the element separator), its only whitespace is
single interior spaces (so the decoder's whitespace normalisation and
per-part stripping leave it unchanged).  `BodySeg` is the corresponding
invariant for an arbitrary stretch of a segment body. -/

/-- A well-formed field value: no `'`, no `+`, whitespace only as
single interior spaces. -/
def FieldOk (l : List Char) : Prop :=
  (∀ c ∈ l, c ≠ '\'' ∧ c ≠ '+' ∧ (pySpace c = true → c = ' ')) ∧
  l.head? ≠ some ' ' ∧ l.getLast? ≠ some ' ' ∧
  List.Chain' (fun a b => ¬(a = ' ' ∧ b = ' ')) l

/-- A computable decision procedure for the no-double-space chain (the
Mathlib `Chain'` instance does not reduce in the kernel). -/
instance chainSpDec : (l : List Char) →
    Decidable (List.Chain' (fun a b => ¬(a = ' ' ∧ b = ' ')) l)
  | [] => isTrue List.chain'_nil
  | [_] => isTrue (List.chain'_singleton _)
  | _ :: b :: r =>
    haveI := chainSpDec (b :: r)
    decidable_of_iff _ (List.chain'_cons).symm

instance (l : List Char) : Decidable (FieldOk l) :=
  inferInstanceAs (Decidable
    ((∀ c ∈ l, c ≠ '\'' ∧ c ≠ '+' ∧ (pySpace c = true → c = ' ')) ∧
     l.head? ≠ some ' ' ∧ l.getLast? ≠ some ' ' ∧
     List.Chain' (fun a b => ¬(a = ' ' ∧ b = ' ')) l))

/-- A safe stretch of segment-body text: no quote, whitespace only as
single spaces, and whitespace-free edges. -/
def BodySeg (l : List Char) : Prop :=
  (∀ c ∈ l, c ≠ '\'' ∧ (pySpace c = true → c = ' ')) ∧
  (∀ c, l.head? = some c → pySpace c = false) ∧
  (∀ c, l.getLast? = some c → pySpace c = false) ∧
  List.Chain' (fun a b => ¬(pySpace a = true ∧ pySpace b = true)) l

theorem mem_of_head?_eq {l : List Char} {c : Char} (h : l.head? = some c) :
    c ∈ l := by
  cases l with
  | nil => simp at h
  | cons a as =>
    simp only [List.head?_cons, Option.some.injEq] at h
    exact h ▸ List.mem_cons_self a as

theorem mem_of_getLast?_eq {l : List Char} {c : Char} (h : l.getLast? = some c) :
    c ∈ l := by
  induction l with
  | nil => simp at h
  | cons a as ih =>
    cases as with
    | nil =>
      simp only [List.getLast?_singleton, Option.some.injEq] at h
      exact h ▸ List.mem_singleton_self a
    | cons b bs =>
      rw [List.getLast?_cons_cons] at h
      exact List.mem_cons_of_mem a (ih h)

/-- A list of whitespace-free safe characters is a `BodySeg`. -/
theorem BodySeg_of_forall {l : List Char}
    (h : ∀ c ∈ l, c ≠ '\'' ∧ pySpace c = false) : BodySeg l := by
  refine ⟨fun c hc => ⟨(h c hc).1, fun hws => absurd hws (by simp [(h c hc).2])⟩,
    fun c hc => (h c (mem_of_head?_eq hc)).2,
    fun c hc => (h c (mem_of_getLast?_eq hc)).2, ?_⟩
  induction l with
  | nil => simp
  | cons a as ih =>
    rw [List.chain'_cons']
    refine ⟨fun b _ hab => ?_, ih (fun c hc => h c (List.mem_cons_of_mem a hc))⟩
    exact absurd hab.1 (by simp [(h a (List.mem_cons_self a as)).2])

/-- A no-double-space chain over characters whose only whitespace is the
space character is a no-double-whitespace chain. -/
theorem chain_ws_of_spaces {l : List Char}
    (hchars : ∀ c ∈ l, pySpace c = true → c = ' ')
    (hch : List.Chain' (fun a b => ¬(a = ' ' ∧ b = ' ')) l) :
    List.Chain' (fun a b => ¬(pySpace a = true ∧ pySpace b = true)) l := by
  induction l with
  | nil => simp
  | cons a as ih =>
    rw [List.chain'_cons'] at hch ⊢
    refine ⟨fun b hb hab => ?_,
      ih (fun c hc => hchars c (List.mem_cons_of_mem a hc)) hch.2⟩
    have ha : a = ' ' := hchars a (List.mem_cons_self a as) hab.1
    have hbm : b ∈ as := mem_of_head?_eq (Option.mem_def.mp hb)
    have hb' : b = ' ' := hchars b (List.mem_cons_of_mem a hbm) hab.2
    exact hch.1 b hb ⟨ha, hb'⟩

/-- A well-formed field is a safe body stretch. -/
theorem FieldOk.bodySeg {l : List Char} (h : FieldOk l) : BodySeg l := by
  obtain ⟨hchars, hh, hl, hch⟩ := h
  refine ⟨fun c hc => ⟨(hchars c hc).1, (hchars c hc).2.2⟩, ?_, ?_,
    chain_ws_of_spaces (fun c hc => (hchars c hc).2.2) hch⟩
  · intro c hc
    by_contra hws
    have hws' : pySpace c = true := by revert hws; cases pySpace c <;> simp
    have := (hchars c (mem_of_head?_eq hc)).2.2 hws'
    exact hh (this ▸ hc)
  · intro c hc
    by_contra hws
    have hws' : pySpace c = true := by revert hws; cases pySpace c <;> simp
    have := (hchars c (mem_of_getLast?_eq hc)).2.2 hws'
    exact hl (this ▸ hc)

/-- Safe body stretches are closed under concatenation (the left edge
being whitespace-free discharges the run condition at the seam). -/
theorem BodySeg.append {l₁ l₂ : List Char} (h₁ : BodySeg l₁) (h₂ : BodySeg l₂) :
    BodySeg (l₁ ++ l₂) := by
  obtain ⟨c₁, hh₁, hl₁, ch₁⟩ := h₁
  obtain ⟨c₂, hh₂, hl₂, ch₂⟩ := h₂
  refine ⟨?_, ?_, ?_, ?_⟩
  · intro c hc
    rcases List.mem_append.mp hc with h | h
    · exact c₁ c h
    · exact c₂ c h
  · intro c hc
    rw [List.head?_append] at hc
    cases hhead : l₁.head? with
    | some a =>
      rw [hhead] at hc
      exact hh₁ c (hhead.trans (by simpa [Option.or] using hc))
    | none =>
      rw [hhead] at hc
      exact hh₂ c (by simpa [Option.or] using hc)
  · intro c hc
    cases h2nil : l₂ with
    | nil =>
      rw [h2nil, List.append_nil] at hc
      exact hl₁ c hc
    | cons b bs =>
      rw [List.getLast?_append_of_ne_nil _ (by simp [h2nil])] at hc
      exact hl₂ c (h2nil ▸ hc)
  · rw [List.chain'_append]
    exact ⟨ch₁, ch₂, fun x hx y _ hxy => by
      simp [hl₁ x (Option.mem_def.mp hx)] at hxy⟩

/-- A concrete all-safe, whitespace-free chunk (used for the literal
parts of segment bodies). -/
theorem BodySeg_lit (s : String)
    (h : ∀ c ∈ S s, c ≠ '\'' ∧ pySpace c = false) : BodySeg (S s) :=
  BodySeg_of_forall h

/-- Characters of decimal formatting are digits, hence safe. -/
theorem digitChar_safe (m : Nat) :
    digitChar m ≠ '\'' ∧ digitChar m ≠ '+' ∧ digitChar m ≠ ':' ∧
      pySpace (digitChar m) = false := by
  unfold digitChar
  have hk : m % 10 < 10 := Nat.mod_lt _ (by norm_num)
  set k := m % 10 with hdef
  interval_cases k <;> decide

theorem pad2_safe (m : Nat) :
    ∀ c ∈ pad2 m, c ≠ '\'' ∧ c ≠ '+' ∧ c ≠ ':' ∧ pySpace c = false := by
  intro c hc
  simp only [pad2, List.mem_cons, List.not_mem_nil, or_false] at hc
  rcases hc with rfl | rfl
  · exact digitChar_safe _
  · exact digitChar_safe _

theorem pad4_safe (m : Nat) :
    ∀ c ∈ pad4 m, c ≠ '\'' ∧ c ≠ '+' ∧ c ≠ ':' ∧ pySpace c = false := by
  intro c hc
  simp only [pad4, List.mem_cons, List.not_mem_nil, or_false] at hc
  rcases hc with rfl | rfl | rfl | rfl
  all_goals exact digitChar_safe _

theorem BodySeg_pad2 (m : Nat) : BodySeg (pad2 m) :=
  BodySeg_of_forall (fun c hc => ⟨(pad2_safe m c hc).1, (pad2_safe m c hc).2.2.2⟩)

theorem BodySeg_pad4 (m : Nat) : BodySeg (pad4 m) :=
  BodySeg_of_forall (fun c hc => ⟨(pad4_safe m c hc).1, (pad4_safe m c hc).2.2.2⟩)

theorem BodySeg_fmtYYMMDD (t : DT) : BodySeg (fmtYYMMDD t) :=
  ((BodySeg_pad2 _).append (BodySeg_pad2 _)).append (BodySeg_pad2 _)

theorem BodySeg_fmtHHMM (t : DT) : BodySeg (fmtHHMM t) :=
  (BodySeg_pad2 _).append (BodySeg_pad2 _)

theorem BodySeg_fmtFull (t : DT) : BodySeg (fmtFull t) :=
  (((((BodySeg_pad4 _).append (BodySeg_pad2 _)).append (BodySeg_pad2 _)).append
    (BodySeg_pad2 _)).append (BodySeg_pad2 _)).append (BodySeg_pad2 _)

/-- Characters of a digit string are safe. -/
theorem isDigit_safe (c : Char) (h : c.isDigit = true) :
    c ≠ '\'' ∧ c ≠ '+' ∧ c ≠ ':' ∧ pySpace c = false := by
  have hv : 48 ≤ c.val.toNat ∧ c.val.toNat ≤ 57 := by
    simp only [Char.isDigit, Bool.and_eq_true, decide_eq_true_eq] at h
    exact ⟨h.1, h.2⟩
  refine ⟨?_, ?_, ?_, ?_⟩
  · rintro rfl; revert hv; decide
  · rintro rfl; revert hv; decide
  · rintro rfl; revert hv; decide
  · by_contra hws
    have hws' : pySpace c = true := by revert hws; cases pySpace c <;> simp
    simp only [pySpace, Bool.or_eq_true, beq_iff_eq] at hws'
    have hcs : c = ' ' ∨ c = '\t' ∨ c = '\n' ∨ c = '\r' ∨ c = '\x0b' ∨
        c = '\x0c' := by tauto
    rcases hcs with rfl | rfl | rfl | rfl | rfl | rfl <;> revert hv <;> decide

/-- A digit string is a safe body stretch. -/
theorem BodySeg_digits {l : List Char} (h : ∀ c ∈ l, c.isDigit = true) :
    BodySeg l :=
  BodySeg_of_forall fun c hc =>
    ⟨(isDigit_safe c (h c hc)).1, (isDigit_safe c (h c hc)).2.2.2⟩

theorem dropWhile_eq_self_of_head (p : Char → Bool) (l : List Char)
    (h : ∀ c, l.head? = some c → p c = false) : l.dropWhile p = l := by
  cases l with
  | nil => rfl
  | cons c cs => simp [List.dropWhile, h c rfl]

/-- `strip` is the identity when both edges are non-whitespace. -/
theorem stripWs_eq_self (l : List Char)
    (hh : ∀ c, l.head? = some c → pySpace c = false)
    (hl : ∀ c, l.getLast? = some c → pySpace c = false) : stripWs l = l := by
  unfold stripWs
  rw [dropWhile_eq_self_of_head _ _ hh,
    dropWhile_eq_self_of_head _ _ (fun c hc => hl c (by rwa [List.head?_reverse] at hc)),
    List.reverse_reverse]

/-- On text without whitespace runs, whitespace collapsing only renames
each whitespace character to a space. -/
theorem collapseAux_eq_map (l : List Char) :
    NoWsRun l →
    ∀ prev : Bool, (prev = true → ∀ c, l.head? = some c → pySpace c = false) →
    collapseAux prev l = l.map (fun c => if pySpace c then ' ' else c) := by
  induction l with
  | nil => intro _ prev _; rfl
  | cons c cs ih =>
    intro hch prev hprev
    rw [NoWsRun, List.chain'_cons'] at hch
    by_cases hc : pySpace c = true
    · have hpf : prev = false := by
        cases prev
        · rfl
        · exact absurd (hprev rfl c rfl) (by simp [hc])
      subst hpf
      have htail : ∀ c', cs.head? = some c' → pySpace c' = false := by
        intro c' hc'
        by_contra hws
        have hws' : pySpace c' = true := by revert hws; cases pySpace c' <;> simp
        exact hch.1 c' (Option.mem_def.mpr hc') ⟨hc, hws'⟩
      have hrec := ih hch.2 true (fun _ => htail)
      simp [collapseAux, hc, hrec]
    · have hcf : pySpace c = false := by revert hc; cases pySpace c <;> simp
      have hrec := ih hch.2 false (by simp)
      simp [collapseAux, hcf, hrec]

/-- The whitespace-renaming map fixes a safe chunk. -/
theorem map_ws_eq_self {b : List Char}
    (hb : ∀ c ∈ b, pySpace c = true → c = ' ') :
    b.map (fun c => if pySpace c then ' ' else c) = b := by
  induction b with
  | nil => rfl
  | cons c cs ih =>
    have hc := hb c (List.mem_cons_self c cs)
    have htail := ih (fun c' hc' => hb c' (List.mem_cons_of_mem c hc'))
    by_cases hws : pySpace c = true
    · simp [hws, hc hws, htail]
    · simp [hws, htail]

/-- Collapsing the newline-joined segments yields the space-joined
segments. -/
theorem map_ws_join (bodies : List (List Char))
    (h : ∀ b ∈ bodies, ∀ c ∈ b, pySpace c = true → c = ' ') :
    (joinSep (S "\n") (bodies.map (· ++ S "'"))).map
        (fun c => if pySpace c then ' ' else c) =
      joinSep [' '] (bodies.map (· ++ S "'")) := by
  induction bodies with
  | nil => rfl
  | cons b bs ih =>
    cases bs with
    | nil =>
      show ((b ++ S "'").map _) = b ++ S "'"
      rw [List.map_append, map_ws_eq_self (h b (List.mem_cons_self b _))]
      rfl
    | cons b₂ bs₂ =>
      have ih' := ih (fun b' hb' => h b' (List.mem_cons_of_mem b hb'))
      show ((b ++ S "'") ++ (S "\n" ++ _)).map _ = (b ++ S "'") ++ ([' '] ++ _)
      rw [List.map_append, List.map_append, List.map_append,
        map_ws_eq_self (h b (List.mem_cons_self b _)),
        show (S "'").map (fun c => if pySpace c then ' ' else c) = S "'" from rfl,
        show (S "\n").map (fun c => if pySpace c then ' ' else c) = [' '] from rfl]
      exact congrArg (fun z => b ++ S "'" ++ ([' '] ++ z)) ih'

/-- The cons unfolding of the quote-space walker. -/
theorem rmQuoteSpAux_cons (prevQ : Bool) (c : Char) (cs : List Char) :
    rmQuoteSpAux prevQ (c :: cs) =
      if c = ' ' then
        (if prevQ = true ∨ cs.head? = some '\'' then rmQuoteSpAux false cs
         else ' ' :: rmQuoteSpAux false cs)
      else c :: rmQuoteSpAux (decide (c = '\'')) cs := rfl

/-- `rmQuoteSp` walks through a quote-free chunk whose last character is
not a space without changing it. -/
theorem rmQSAux_append_inert (b rest : List Char)
    (hq : '\'' ∉ b) (hl : b.getLast? ≠ some ' ') :
    rmQuoteSpAux false (b ++ rest) = b ++ rmQuoteSpAux false rest := by
  induction b with
  | nil => rfl
  | cons c cs ih =>
    have hcq : c ≠ '\'' := fun hh => hq (hh ▸ List.mem_cons_self c cs)
    have hq' : '\'' ∉ cs := fun hm => hq (List.mem_cons_of_mem c hm)
    rw [List.cons_append, rmQuoteSpAux_cons]
    by_cases hc : c = ' '
    · cases cs with
      | nil => exact absurd (by simp [hc]) hl
      | cons d ds =>
        have hd : d ≠ '\'' := fun hh => hq (by simp [hh])
        have hl' : (d :: ds).getLast? ≠ some ' ' := by
          rwa [List.getLast?_cons_cons] at hl
        have hrec := ih hq' hl'
        have hcond : ¬((false : Bool) = true ∨
            ((d :: ds) ++ rest).head? = some '\'') := by
          rintro (h | h)
          · simp at h
          · rw [List.cons_append, List.head?_cons] at h
            exact hd (Option.some.inj h)
        rw [if_pos hc, if_neg hcond, hrec, hc, List.cons_append]
        rfl
    · have hl' : cs.getLast? ≠ some ' ' := by
        cases cs with
        | nil => simp
        | cons d ds => rwa [List.getLast?_cons_cons] at hl
      have hrec := ih hq' hl'
      rw [if_neg hc, show (decide (c = '\'')) = false from by simp [hcq], hrec]
      rfl

/-- Removing quote-adjacent spaces from the space-joined segments glues
them together. -/
theorem rmQS_join (bodies : List (List Char))
    (h : ∀ b ∈ bodies, ('\'' ∉ b) ∧ b.getLast? ≠ some ' ') :
    rmQuoteSp (joinSep [' '] (bodies.map (· ++ S "'"))) =
      (bodies.map (· ++ S "'")).flatten := by
  induction bodies with
  | nil => rfl
  | cons b bs ih =>
    obtain ⟨hq, hl⟩ := h b (List.mem_cons_self b _)
    cases bs with
    | nil =>
      show rmQuoteSpAux false (b ++ S "'") = _
      rw [rmQSAux_append_inert b (S "'") hq hl]
      simp [show rmQuoteSpAux false (S "'") = S "'" from rfl]
    | cons b₂ bs₂ =>
      have ih' : rmQuoteSpAux false
          (joinSep [' '] ((b₂ :: bs₂).map (· ++ S "'"))) =
          ((b₂ :: bs₂).map (· ++ S "'")).flatten :=
        ih (fun b' hb' => h b' (List.mem_cons_of_mem b hb'))
      show rmQuoteSpAux false ((b ++ S "'") ++
          ([' '] ++ joinSep [' '] ((b₂ :: bs₂).map (· ++ S "'")))) = _
      rw [List.append_assoc, rmQSAux_append_inert b _ hq hl]
      show b ++ rmQuoteSpAux false
        ('\'' :: ' ' :: joinSep [' '] ((b₂ :: bs₂).map (· ++ S "'"))) = _
      rw [show ∀ t, rmQuoteSpAux false ('\'' :: ' ' :: t) = '\'' :: rmQuoteSpAux false t
        from fun t => rfl]
      show b ++ '\'' :: rmQuoteSpAux false
          (joinSep [' '] ((b₂ :: bs₂).map (· ++ S "'"))) =
        (b ++ S "'") ++ ((b₂ :: bs₂).map (· ++ S "'")).flatten
      rw [ih', List.append_assoc]
      rfl

/-- Splitting a separator-free chunk. -/
theorem splitCh_no_sep (sep : Char) (b : List Char) (h : sep ∉ b) :
    splitCh sep b = [b] := by
  induction b with
  | nil => rfl
  | cons c cs ih =>
    have hcne : c ≠ sep := fun hh => h (hh ▸ List.mem_cons_self c cs)
    have hrec := ih (fun hm => h (List.mem_cons_of_mem c hm))
    simp [splitCh, hcne, hrec]

/-- Splitting peels a separator-free chunk before a separator. -/
theorem splitCh_append_sep (sep : Char) (b rest : List Char) (h : sep ∉ b) :
    splitCh sep (b ++ sep :: rest) = b :: splitCh sep rest := by
  induction b with
  | nil => simp [splitCh]
  | cons c cs ih =>
    have hcne : c ≠ sep := fun hh => h (hh ▸ List.mem_cons_self c cs)
    have hrec := ih (fun hm => h (List.mem_cons_of_mem c hm))
    simp [splitCh, hcne, hrec]

/-- Splitting the glued segments on the terminator recovers the bodies
(plus the empty fragment after the final terminator). -/
theorem splitCh_flatten_bodies (bodies : List (List Char))
    (h : ∀ b ∈ bodies, '\'' ∉ b) :
    splitCh '\'' ((bodies.map (· ++ S "'")).flatten) = bodies ++ [[]] := by
  induction bodies with
  | nil => rfl
  | cons b bs ih =>
    have ih' := ih (fun b' hb' => h b' (List.mem_cons_of_mem b hb'))
    rw [List.map_cons, List.flatten_cons, List.append_assoc]
    rw [show S "'" ++ (bs.map (· ++ S "'")).flatten =
      '\'' :: (bs.map (· ++ S "'")).flatten from rfl]
    rw [splitCh_append_sep _ _ _ (h b (List.mem_cons_self b _)), ih']
    rfl

/-- Splitting a separator-join of separator-free parts recovers the
parts. -/
theorem splitCh_joinSep (sep : Char) (parts : List (List Char))
    (h : ∀ p ∈ parts, sep ∉ p) (hne : parts ≠ []) :
    splitCh sep (joinSep [sep] parts) = parts := by
  induction parts with
  | nil => exact absurd rfl hne
  | cons p ps ih =>
    cases ps with
    | nil => exact splitCh_no_sep sep p (h p (List.mem_cons_self p _))
    | cons p₂ ps₂ =>
      have ih' := ih (fun p' hp' => h p' (List.mem_cons_of_mem p hp')) (by simp)
      show splitCh sep (p ++ (sep :: joinSep [sep] (p₂ :: ps₂))) = _
      rw [splitCh_append_sep _ _ _ (h p (List.mem_cons_self p _)), ih']

theorem head?_join_q (b : List Char) (bs : List (List Char)) :
    (joinSep (S "\n") ((b :: bs).map (· ++ S "'"))).head? = (b ++ S "'").head? := by
  cases bs with
  | nil => rfl
  | cons b₂ bs₂ =>
    show ((b ++ S "'") ++ _).head? = _
    rw [List.head?_append]
    cases hh : (b ++ S "'").head? with
    | none =>
      rw [List.head?_eq_none_iff] at hh
      rcases List.append_eq_nil.mp hh with ⟨-, h2⟩
      cases h2
    | some a => rfl

theorem getLast?_join_q (bodies : List (List Char)) (hne : bodies ≠ []) :
    (joinSep (S "\n") (bodies.map (· ++ S "'"))).getLast? = some '\'' := by
  induction bodies with
  | nil => exact absurd rfl hne
  | cons b bs ih =>
    cases bs with
    | nil =>
      show (b ++ S "'").getLast? = some '\''
      rw [List.getLast?_append_of_ne_nil _ (by simp [S])]
      rfl
    | cons b₂ bs₂ =>
      have ih' := ih (by simp)
      have hJne : joinSep (S "\n") ((b₂ :: bs₂).map (· ++ S "'")) ≠ [] := by
        intro hnil
        rw [hnil] at ih'
        simp at ih'
      have hs : S "\n" ++ joinSep (S "\n") ((b₂ :: bs₂).map (· ++ S "'")) ≠ [] :=
        List.cons_ne_nil _ _
      show ((b ++ S "'") ++ (S "\n" ++
        joinSep (S "\n") ((b₂ :: bs₂).map (· ++ S "'")))).getLast? = some '\''
      rw [List.getLast?_append_of_ne_nil _ hs,
        List.getLast?_append_of_ne_nil _ hJne, ih']

/-- The newline-joined segment text has no whitespace runs: each newline
separator sits between a terminator quote and a segment tag. -/
theorem chain_join (bodies : List (List Char))
    (h : ∀ b ∈ bodies, b ≠ [] ∧ BodySeg b) :
    NoWsRun (joinSep (S "\n") (bodies.map (· ++ S "'"))) := by
  induction bodies with
  | nil => exact List.chain'_nil
  | cons b bs ih =>
    obtain ⟨hbne, hbseg⟩ := h b (List.mem_cons_self b _)
    have hchainSeg : NoWsRun (b ++ S "'") := by
      unfold NoWsRun
      rw [List.chain'_append]
      refine ⟨hbseg.2.2.2, List.chain'_singleton _, fun x hx y _ hxy => ?_⟩
      simp [hbseg.2.2.1 x (Option.mem_def.mp hx)] at hxy
    cases bs with
    | nil => exact hchainSeg
    | cons b₂ bs₂ =>
      have ih' := ih (fun b' hb' => h b' (List.mem_cons_of_mem b hb'))
      obtain ⟨hb₂ne, hb₂seg⟩ := h b₂ (by simp)
      show NoWsRun ((b ++ S "'") ++ (S "\n" ++
        joinSep (S "\n") ((b₂ :: bs₂).map (· ++ S "'"))))
      unfold NoWsRun
      rw [List.chain'_append]
      refine ⟨hchainSeg, ?_, ?_⟩
      · rw [show S "\n" ++ joinSep (S "\n") ((b₂ :: bs₂).map (· ++ S "'")) =
          '\n' :: joinSep (S "\n") ((b₂ :: bs₂).map (· ++ S "'")) from rfl,
          List.chain'_cons']
        refine ⟨?_, ih'⟩
        rintro y hy ⟨-, hyws⟩
        have hy' := Option.mem_def.mp hy
        rw [head?_join_q] at hy'
        cases b₂ with
        | nil => exact absurd rfl hb₂ne
        | cons c cs =>
          rw [List.cons_append, List.head?_cons] at hy'
          have := hb₂seg.2.1 c rfl
          rw [← Option.some.inj hy'] at hyws
          simp [this] at hyws
      · intro x hx y _ hxy
        have hx' := Option.mem_def.mp hx
        rw [List.getLast?_append_of_ne_nil _ (by simp [S])] at hx'
        have : x = '\'' := by
          have : (S "'").getLast? = some '\'' := rfl
          rw [this] at hx'
          exact (Option.some.inj hx').symm
        rw [this] at hxy
        exact absurd hxy.1 (by decide)

/-- Normalising the encoder's newline-joined text glues the segments
into wire form: the separators disappear and nothing else changes. -/
theorem normalize_join (bodies : List (List Char)) (hne : bodies ≠ [])
    (h : ∀ b ∈ bodies, b ≠ [] ∧ BodySeg b) :
    normalizeEdi (joinSep (S "\n") (bodies.map (· ++ S "'"))) =
      (bodies.map (· ++ S "'")).flatten := by
  unfold normalizeEdi
  rw [stripWs_eq_self _ ?hh ?hl]
  case hh =>
    intro c hc
    cases bodies with
    | nil => exact absurd rfl hne
    | cons b bs =>
      rw [head?_join_q] at hc
      obtain ⟨-, hbseg⟩ := h b (List.mem_cons_self b _)
      cases b with
      | nil =>
        rw [List.nil_append] at hc
        have : c = '\'' := Option.some.inj (by rw [← hc]; rfl) |>.symm
        rw [this]; rfl
      | cons a as =>
        rw [List.cons_append, List.head?_cons] at hc
        exact Option.some.inj hc ▸ hbseg.2.1 a rfl
  case hl =>
    intro c hc
    rw [getLast?_join_q bodies hne] at hc
    rw [(Option.some.inj hc).symm]
    rfl
  rw [show collapseWs (joinSep (S "\n") (bodies.map (· ++ S "'"))) =
      (joinSep (S "\n") (bodies.map (· ++ S "'"))).map
        (fun c => if pySpace c then ' ' else c) from
    collapseAux_eq_map _ (chain_join bodies h) false (by simp)]
  rw [map_ws_join bodies (fun b hb => fun c hc => ((h b hb).2.1 c hc).2)]
  exact rmQS_join bodies (fun b hb =>
    ⟨fun hm => ((h b hb).2.1 '\'' hm).1 rfl,
     fun hlast => absurd ((h b hb).2.2.2.1 ' ' hlast) (by decide)⟩)

/-- Stripping a safe body stretch changes nothing. -/
theorem BodySeg.stripEq {l : List Char} (h : BodySeg l) : stripWs l = l :=
  stripWs_eq_self l h.2.1 h.2.2.1

/-- Stripping a well-formed field changes nothing. -/
theorem FieldOk.stripField {l : List Char} (h : FieldOk l) : stripWs l = l :=
  h.bodySeg.stripEq

/-- `'+' ∉ l` for a well-formed field. -/
theorem FieldOk.no_plus {l : List Char} (h : FieldOk l) : '+' ∉ l :=
  fun hm => (h.1 '+' hm).2.1 rfl

/-- Splitting the decoder's per-fragment work on a body whose `+`-split
and strips are known. -/
theorem mkSegment_parts (b tag : List Char) (flds : List (List Char))
    (hsplit : splitCh '+' b = tag :: flds)
    (hb : stripWs b = b) (hbne : b ≠ [])
    (htag : stripWs tag = tag) (htagne : tag ≠ [])
    (hflds : flds.map stripWs = flds) :
    mkSegment b = some ⟨tag, flds⟩ := by
  unfold mkSegment
  rw [hb, if_neg hbne, hsplit]
  simp only [List.headI_cons, List.drop_succ_cons, List.drop_zero, htag,
    if_neg htagne, hflds]

/-- The decode side of an encoded segment list: normalising and
splitting yields one decoded segment per body. -/
theorem splitIntoSegments_join (bodies : List (List Char)) (hne : bodies ≠ [])
    (h : ∀ b ∈ bodies, b ≠ [] ∧ BodySeg b) :
    splitIntoSegments (normalizeEdi (joinSep (S "\n") (bodies.map (· ++ S "'")))) =
      bodies.filterMap mkSegment := by
  unfold splitIntoSegments
  rw [normalize_join bodies hne h,
    splitCh_flatten_bodies bodies (fun b hb => fun hm => ((h b hb).2.1 '\'' hm).1 rfl),
    List.filterMap_append,
    show (List.filterMap mkSegment [[]] : List EdiSegment) = [] from rfl,
    List.append_nil]

theorem fmtYYMMDD_safe (t : DT) :
    ∀ c ∈ fmtYYMMDD t, c ≠ '\'' ∧ c ≠ '+' ∧ c ≠ ':' ∧ pySpace c = false := by
  intro c hc
  unfold fmtYYMMDD at hc
  rcases List.mem_append.mp hc with h | h
  · rcases List.mem_append.mp h with h' | h'
    · exact pad2_safe _ c h'
    · exact pad2_safe _ c h'
  · exact pad2_safe _ c h

theorem fmtHHMM_safe (t : DT) :
    ∀ c ∈ fmtHHMM t, c ≠ '\'' ∧ c ≠ '+' ∧ c ≠ ':' ∧ pySpace c = false := by
  intro c hc
  unfold fmtHHMM at hc
  rcases List.mem_append.mp hc with h | h
  · exact pad2_safe _ c h
  · exact pad2_safe _ c h

theorem fmtFull_safe (t : DT) :
    ∀ c ∈ fmtFull t, c ≠ '\'' ∧ c ≠ '+' ∧ c ≠ ':' ∧ pySpace c = false := by
  intro c hc
  unfold fmtFull at hc
  rcases List.mem_append.mp hc with h | h
  · rcases List.mem_append.mp h with h | h
    · rcases List.mem_append.mp h with h | h
      · rcases List.mem_append.mp h with h | h
        · rcases List.mem_append.mp h with h | h
          · exact pad4_safe _ c h
          · exact pad2_safe _ c h
        · exact pad2_safe _ c h
      · exact pad2_safe _ c h
    · exact pad2_safe _ c h
  · exact pad2_safe _ c h

/-- `'+'` does not occur in a digit string. -/
theorem no_plus_digits {l : List Char} (h : ∀ c ∈ l, c.isDigit = true) :
    '+' ∉ l :=
  fun hm => (isDigit_safe _ (h _ hm)).2.1 rfl

/-- `':'` does not occur in a digit string. -/
theorem no_colon_digits {l : List Char} (h : ∀ c ∈ l, c.isDigit = true) :
    ':' ∉ l :=
  fun hm => (isDigit_safe _ (h _ hm)).2.2.1 rfl

/-! ## Theorems for the claims -/

set_option maxRecDepth 100000

/-- Claim C2: encoding the spec's descriptive scenario record yields a
message containing the exact segments `BGM+393+PCIU9507070+9'`,
`COD+PCIU9507070+40+01'` and `UNT+11+1'`, and exactly three occurrences
of the substring `NAD+`. -/
theorem claim_C2 :
    ∃ edi, map_xml_to_codeco sampleDescriptiveRecord = .ok edi ∧
      hasSub (S "BGM+393+PCIU9507070+9'") edi = true ∧
      hasSub (S "COD+PCIU9507070+40+01'") edi = true ∧
      hasSub (S "UNT+11+1'") edi = true ∧
      countSub (S "NAD+") edi = 3 := by
  refine ⟨_, rfl, ?_, ?_, ?_, ?_⟩ <;> decide

/-- Claim C5 (code bug): with customer `PIL SHIPPING` and an explicitly
supplied `location_details` of `XXX:STO:ZZZ`, the generator's LOC segment
uses the inferred `CIABJ31:STO:ZZZ` — the partner-marker inference
overrides the explicit value, contradicting the source comment
"Determine location details based on customer if not explicitly set". -/
theorem claim_C5 :
    (generate_codeco_segments pilExplicitDetailsData sampleNowC).filter
        (fun s => startsWithL (S "LOC") s) =
      [S "LOC+165+CIABJ:139:6+CIABJ31:STO:ZZZ'"] ∧
    hasSub (S "XXX") (generate_codeco_edi pilExplicitDetailsData sampleNowC)
      = false := by
  constructor <;> decide

/-- Claim C9 (counterexample): `get_element` with index `-3` on a segment
of two elements passes the `index < len` guard and then raises
`IndexError`, so it does raise for an out-of-range index. -/
theorem claim_C9_cex :
    getElementI ⟨S "NAD", [S "TO", S "X"]⟩ (-3) (S "dflt") =
      .error (S "IndexError: list index out of range") := by
  rfl

/-- Claim C9 (amended): for nonnegative indices `get_element` and
`get_composite` never raise — they return the addressed element or
component, or the caller-supplied default when it is out of range. -/
theorem claim_C9 (s : EdiSegment) (i ei ci : Int) (d : List Char)
    (hi : 0 ≤ i) (hei : 0 ≤ ei) (hci : 0 ≤ ci) :
    getElementI s i d = .ok (s.elements.getD i.toNat d) ∧
    getCompositeI s ei ci d =
      .ok ((if getEltN s ei.toNat = [] then []
            else splitCh ':' (getEltN s ei.toNat)).getD ci.toNat d) := by
  have hidx : ∀ (xs : List (List Char)) (j : Int) (d0 d1 : List Char), 0 ≤ j →
      j < (xs.length : Int) → pyListIndex d0 xs j = .ok (xs.getD j.toNat d1) := by
    intro xs j d0 d1 hj hlt
    have hn : j.toNat < xs.length := by omega
    simp [pyListIndex, hj, hn, List.getD_eq_getElem?_getD,
      List.getElem?_eq_getElem hn]
  have hElt : ∀ (j : Int) (dd : List Char), 0 ≤ j →
      getElementI s j dd = .ok (s.elements.getD j.toNat dd) := by
    intro j dd hj
    by_cases hlt : j < (s.elements.length : Int)
    · simp [getElementI, hlt, hidx s.elements j [] dd hj hlt]
    · have hge : s.elements.length ≤ j.toNat := by omega
      simp [getElementI, hlt, List.getD_eq_getElem?_getD,
        List.getElem?_eq_none hge]
  refine ⟨hElt i d hi, ?_⟩
  have hE : getElementI s ei [] = .ok (s.elements.getD ei.toNat []) :=
    hElt ei [] hei
  have hbind : getCompositeI s ei ci d =
      (let comps := if s.elements.getD ei.toNat [] = [] then []
        else splitCh ':' (s.elements.getD ei.toNat []);
       if ci < (comps.length : Int) then pyListIndex [] comps ci
       else .ok d) := by
    simp only [getCompositeI, hE]
    rfl
  rw [hbind]
  simp only [getEltN]
  set comps := (if s.elements.getD ei.toNat [] = [] then []
    else splitCh ':' (s.elements.getD ei.toNat [])) with hcomps
  by_cases hlt : ci < (comps.length : Int)
  · simp [hlt, hidx comps ci [] d hci hlt]
  · have hge : comps.length ≤ ci.toNat := by omega
    simp [hlt, List.getD_eq_getElem?_getD, List.getElem?_eq_none hge]

/-- Claim C9 (witness for the amended theorem). -/
theorem claim_C9_witness :
    getElementI ⟨S "DTM", [S "137:20240101:204"]⟩ 2 (S "dflt") =
      .ok (S "dflt") ∧
    getCompositeI ⟨S "DTM", [S "137:20240101:204"]⟩ 0 1 (S "d") =
      .ok (S "20240101") := by
  have h := claim_C9 ⟨S "DTM", [S "137:20240101:204"]⟩ 2 0 1 (S "dflt")
    (by decide) (by decide) (by decide)
  have h2 := claim_C9 ⟨S "DTM", [S "137:20240101:204"]⟩ 2 0 1 (S "d")
    (by decide) (by decide) (by decide)
  refine ⟨?_, ?_⟩
  · rw [h.1]; rfl
  · rw [h2.2]; rfl

/-- Claim C8: the compact encoder emits exactly one `RFF+EQR:` segment
when the customer contains the `ONEY` marker case-insensitively and an
equipment reference is supplied, and none when the marker is absent,
regardless of the equipment reference. -/
theorem claim_C8 (data : CompactData) (now : NowC) :
    ((pyTruthy data.equipment_reference = true ∧
        hasSub (S "ONEY") (asciiUpper (data.customer.getD [])) = true) →
      ((generate_codeco_segments data now).filter
        (fun s => startsWithL (S "RFF+EQR:") s)).length = 1) ∧
    (hasSub (S "ONEY") (asciiUpper (data.customer.getD [])) = false →
      ((generate_codeco_segments data now).filter
        (fun s => startsWithL (S "RFF+EQR:") s)).length = 0) := by
  constructor
  · intro he
    by_cases hb : pyTruthy data.booking_reference = true
    · simp only [generate_codeco_segments]; rw [if_pos hb, if_pos he]; rfl
    · simp only [generate_codeco_segments]; rw [if_neg hb, if_pos he]; rfl
  · intro hc
    have he : ¬(pyTruthy data.equipment_reference = true ∧
        hasSub (S "ONEY") (asciiUpper (data.customer.getD [])) = true) := by
      rintro ⟨-, h⟩
      rw [hc] at h
      exact Bool.false_ne_true h
    by_cases hb : pyTruthy data.booking_reference = true
    · simp only [generate_codeco_segments]; rw [if_pos hb, if_neg he]; rfl
    · simp only [generate_codeco_segments]; rw [if_neg hb, if_neg he]; rfl

/-- Claim C8 (witness): the marker-and-reference case emits one
`RFF+EQR:` segment; the empty request emits none. -/
theorem claim_C8_witness :
    ((generate_codeco_segments oneyEqrData sampleNowC).filter
      (fun s => startsWithL (S "RFF+EQR:") s)).length = 1 ∧
    ((generate_codeco_segments emptyCompactData sampleNowC).filter
      (fun s => startsWithL (S "RFF+EQR:") s)).length = 0 :=
  ⟨(claim_C8 oneyEqrData sampleNowC).1 ⟨by decide, by decide⟩,
   (claim_C8 emptyCompactData sampleNowC).2 (by decide)⟩

/-- Claim C10: the compact encoder's unique LOC segment replaces a
UUID-shaped `location_code` (contains `-` and longer than 20 characters)
by the hard default `CIABJ`, and uses every other `location_code`
verbatim. -/
theorem claim_C10 (data : CompactData) (now : NowC) :
    (hasSub (S "-") (data.location_code.getD (S "CIABJ")) = true ∧
        20 < (data.location_code.getD (S "CIABJ")).length →
      (generate_codeco_segments data now).filter
          (fun s => startsWithL (S "LOC") s) =
        [S "LOC+165+" ++ S "CIABJ" ++ S ":139:6+" ++
          chosenLocationDetails data (compactReceiver data) ++ S "'"]) ∧
    (¬(hasSub (S "-") (data.location_code.getD (S "CIABJ")) = true ∧
        20 < (data.location_code.getD (S "CIABJ")).length) →
      (generate_codeco_segments data now).filter
          (fun s => startsWithL (S "LOC") s) =
        [S "LOC+165+" ++ data.location_code.getD (S "CIABJ") ++ S ":139:6+" ++
          chosenLocationDetails data (compactReceiver data) ++ S "'"]) := by
  constructor
  · intro h
    by_cases hb : pyTruthy data.booking_reference = true <;>
    by_cases he : (pyTruthy data.equipment_reference = true ∧
        hasSub (S "ONEY") (asciiUpper (data.customer.getD [])) = true)
    · simp only [generate_codeco_segments]; rw [if_pos hb, if_pos he, if_pos h]; rfl
    · simp only [generate_codeco_segments]; rw [if_pos hb, if_neg he, if_pos h]; rfl
    · simp only [generate_codeco_segments]; rw [if_neg hb, if_pos he, if_pos h]; rfl
    · simp only [generate_codeco_segments]; rw [if_neg hb, if_neg he, if_pos h]; rfl
  · intro h
    by_cases hb : pyTruthy data.booking_reference = true <;>
    by_cases he : (pyTruthy data.equipment_reference = true ∧
        hasSub (S "ONEY") (asciiUpper (data.customer.getD [])) = true)
    · simp only [generate_codeco_segments]; rw [if_pos hb, if_pos he, if_neg h]; rfl
    · simp only [generate_codeco_segments]; rw [if_pos hb, if_neg he, if_neg h]; rfl
    · simp only [generate_codeco_segments]; rw [if_neg hb, if_pos he, if_neg h]; rfl
    · simp only [generate_codeco_segments]; rw [if_neg hb, if_neg he, if_neg h]; rfl

/-- Claim C10 (witness): a UUID-shaped `location_code` is replaced by
`CIABJ`; the default request's `CIABJ` passes through verbatim. -/
theorem claim_C10_witness :
    (generate_codeco_segments uuidLocationData sampleNowC).filter
        (fun s => startsWithL (S "LOC") s) =
      [S "LOC+165+" ++ S "CIABJ" ++ S ":139:6+" ++
        chosenLocationDetails uuidLocationData
          (compactReceiver uuidLocationData) ++ S "'"] ∧
    (generate_codeco_segments emptyCompactData sampleNowC).filter
        (fun s => startsWithL (S "LOC") s) =
      [S "LOC+165+" ++ emptyCompactData.location_code.getD (S "CIABJ") ++
        S ":139:6+" ++ chosenLocationDetails emptyCompactData
          (compactReceiver emptyCompactData) ++ S "'"] :=
  ⟨(claim_C10 uuidLocationData sampleNowC).1 ⟨by decide, by decide⟩,
   (claim_C10 emptyCompactData sampleNowC).2 (by decide)⟩

/-- An unknown tag leaves the accumulated result unchanged. -/
theorem parseStep_unknown (d : ParsedData) (s : EdiSegment)
    (h : knownTag s.tag = false) : parseStep d s = d := by
  simp only [knownTag, Bool.or_eq_false_iff, beq_eq_false_iff_ne, ne_eq] at h
  obtain ⟨⟨⟨⟨⟨⟨⟨⟨⟨h1, h2⟩, h3⟩, h4⟩, h5⟩, h6⟩, h7⟩, h8⟩, h9⟩, h10⟩ := h
  simp [parseStep, h1, h2, h3, h4, h5, h6, h7, h8, h9, h10]

/-- The dispatch fold ignores segments with unrecognised tags. -/
theorem foldl_parseStep_filter (d : ParsedData) (segs : List EdiSegment) :
    segs.foldl parseStep d =
      (segs.filter fun s => knownTag s.tag).foldl parseStep d := by
  induction segs generalizing d with
  | nil => rfl
  | cons s rest ih =>
    by_cases hk : knownTag s.tag = true
    · simp [List.filter_cons, hk, List.foldl_cons, ih]
    · have hk' : knownTag s.tag = false := by
        cases hkk : knownTag s.tag
        · rfl
        · exact absurd hkk hk
      simp [List.filter_cons, hk', List.foldl_cons, parseStep_unknown d s hk', ih]

/-- Claim C6: the decoder raises exactly when zero valid segments are
found after splitting; segments with unrecognised tags never change the
result, so any input with at least one valid segment decodes to the data
of its recognised segments alone (illustrated by the closing scenario,
where an `XYZ+1+2'` segment is ignored next to a COD segment). -/
theorem claim_C6 :
    (∀ content : List Char,
      (∃ e, parse_edi_message content = .error e) ↔
        splitIntoSegments (normalizeEdi content) = []) ∧
    (∀ segs : List EdiSegment,
      parseSegments segs = parseSegments (segs.filter fun s => knownTag s.tag)) ∧
    parse_edi_message (S "XYZ+1+2'COD+A+20+01'") =
      .ok { initData with
        container_details := ⟨some (S "A"), some (S "20"), some (S "01")⟩ } := by
  refine ⟨?_, ?_, ?_⟩
  · intro content
    by_cases h : splitIntoSegments (normalizeEdi content) = [] <;>
      simp [parse_edi_message, h]
  · intro segs
    exact foldl_parseStep_filter initData segs
  · rfl

/-- Claim C7 (counterexample): on the empty string the validator
returns immediately with the single error `EDI content is empty`; the
`UNB+` check also fails there, yet its message is not in the list, so
not all checks run and not every failing check contributes a message. -/
theorem claim_C7_cex :
    hasSub (S "UNB+") (S "") = false ∧
    (validate_edi_format (S "")).2 = [S "EDI content is empty"] ∧
    ¬ (S "Missing UNB segment (message envelope)") ∈
      (validate_edi_format (S "")).2 := by
  refine ⟨rfl, rfl, ?_⟩
  decide

/-- Claim C7 (amended): `is_valid` is true iff the error list is empty,
for every input; and on every input that is not empty or whitespace-only
the validator runs all remaining checks without short-circuiting, each
failing check appending its own message in order, ending with the
parse-attempt error if the decode fails. -/
theorem claim_C7 (content : List Char) :
    ((validate_edi_format content).1 = true ↔
      (validate_edi_format content).2 = []) ∧
    (stripWs content ≠ [] →
      (validate_edi_format content).2 =
        (if hasSub (S "UNB+") content then [] else
          [S "Missing UNB segment (message envelope)"]) ++
        (if hasSub (S "UNH+") content then [] else
          [S "Missing UNH segment (message header)"]) ++
        (if hasSub (S "UNT+") content then [] else
          [S "Missing UNT segment (message trailer)"]) ++
        (if hasSub (S "UNZ+") content then [] else
          [S "Missing UNZ segment (envelope closing)"]) ++
        (if hasSub (S "CODECO") content then [] else
          [S "Not a CODECO message type"]) ++
        (if hasSub (S "'") content then [] else
          [S "Missing segment terminators (')"]) ++
        (match parse_edi_message content with
          | .ok _ => []
          | .error m => [S "Parsing error: " ++ m])) := by
  have hcond : (content = [] ∨ stripWs content = []) ↔ stripWs content = [] := by
    constructor
    · rintro (h | h)
      · rw [h]; rfl
      · exact h
    · exact Or.inr
  constructor
  · by_cases h : stripWs content = []
    · rw [validate_edi_format, if_pos (hcond.mpr h)]
      simp
    · rw [validate_edi_format, if_neg (fun hc => h (hcond.mp hc))]
      simp [List.isEmpty_iff]
  · intro h
    rw [validate_edi_format, if_neg (fun hc => h (hcond.mp hc))]

/-- Claim C7 (witness for the amended theorem): on `garbage` every
envelope check fails and contributes its message, while the parse
attempt succeeds (one unknown-tag segment), so exactly six errors are
collected and the input is invalid. -/
theorem claim_C7_witness :
    (validate_edi_format (S "garbage")).2 =
      [S "Missing UNB segment (message envelope)",
       S "Missing UNH segment (message header)",
       S "Missing UNT segment (message trailer)",
       S "Missing UNZ segment (envelope closing)",
       S "Not a CODECO message type",
       S "Missing segment terminators (')"] ∧
    (validate_edi_format (S "garbage")).1 = false := by
  have h := (claim_C7 (S "garbage")).2 (by decide)
  constructor
  · rw [h]; rfl
  · rfl

/-- Claim C3 (counterexample): a record whose `Item` is present but
empty raises a `ValueError` from `strptime` (its date and time render as
`NoneNone`), which `convert_xml_to_edi` wraps — so missing fields do
raise; and a record missing only its transporter encodes that field as
the literal text `None`, not as an empty string. -/
theorem claim_C3_cex :
    map_xml_to_codeco recordEmptyItem =
      .error (S "ValueError: time data does not match format '%Y%m%d%H%M%S'") ∧
    convert_xml_to_edi recordEmptyItem =
      .error (S "Failed to convert XML to EDI: ValueError: time data does not match format '%Y%m%d%H%M%S'") ∧
    (∃ edi, map_xml_to_codeco recordNoTransporter = .ok edi ∧
      hasSub (S "NAD+FR+None'") edi = true) := by
  refine ⟨rfl, rfl, _, rfl, ?_⟩
  decide

/-- Claim C3 (amended): the descriptive encoder raises exactly when the
concatenation of the rendered created date and time fails
`%Y%m%d%H%M%S` parsing (in particular when either field is absent); a
field absent from a present `Item` renders as the literal string `None`
in its wire position (the FR NAD becomes `NAD+FR+None'`), not as an
empty string. -/
theorem claim_C3 (r : XmlRecord) :
    ((∃ e, map_xml_to_codeco r = .error e) ↔
      strptime14 (pyStr (itemGet r (·.created_date)) ++
        pyStr (itemGet r (·.created_time))) = none) ∧
    (∀ it, r.item = some it → it.transporter = none → ∀ ts : DT,
      (codecoSegmentList r ts).getD 5 [] = S "NAD+FR+None'") := by
  constructor
  · cases hm : strptime14 (pyStr (itemGet r (·.created_date)) ++
        pyStr (itemGet r (·.created_time))) <;>
      simp [map_xml_to_codeco, hm]
  · intro it hit htr ts
    have htrans : itemGet r (·.transporter) = none := by
      simp [itemGet, hit, htr]
    simp only [codecoSegmentList, htrans]
    rfl

/-- Claim C3 (witness for the amended theorem). -/
theorem claim_C3_witness :
    (codecoSegmentList recordNoTransporter ⟨2024, 4, 25, 4, 0, 11⟩).getD 5 []
      = S "NAD+FR+None'" :=
  (claim_C3 recordNoTransporter).2 _ rfl rfl ⟨2024, 4, 25, 4, 0, 11⟩

/-- Decoding the encoder's eleven joined segments recovers the container
details, the three parties and the DTM value.  The FR NAD body `b6` is
abstract so both the empty- and nonempty-transporter renderings satisfy
it. -/
theorem roundtrip_core
    (cc pl cu tr cn csz st cd ct : List Char) (ts : DT)
    (hcc : FieldOk cc) (hpl : FieldOk pl) (hcu : FieldOk cu)
    (hcn : FieldOk cn) (hcsz : FieldOk csz) (hst : FieldOk st)
    (hdigcd : ∀ c ∈ cd, c.isDigit = true) (hdigct : ∀ c ∈ ct, c.isDigit = true)
    (b6 : List Char) (e6 : List (List Char))
    (hb6ne : b6 ≠ []) (hb6seg : BodySeg b6)
    (hb6mk : mkSegment b6 = some ⟨S "NAD", e6⟩)
    (hq6 : e6.getD 0 [] = S "FR") (hid6 : e6.getD 1 [] = tr) :
    ∃ pd, parse_edi_message (joinSep (S "\n")
        ([S "UNB+UNOC:3+" ++ cc ++ S "+" ++ pl ++ S "+" ++ fmtYYMMDD ts ++ S "+"
            ++ fmtHHMM ts ++ S "+" ++ fmtFull ts,
          S "UNH+1+CODECO:D:96A:UN:EANCOM",
          S "BGM+393+" ++ cn ++ S "+9",
          S "DTM+137:" ++ cd ++ ct ++ S ":204",
          S "NAD+TO+" ++ pl,
          b6,
          S "NAD+SH+" ++ cu,
          S "LOC+87+" ++ pl,
          S "COD+" ++ cn ++ S "+" ++ csz ++ S "+" ++ st,
          S "UNT+11+1",
          S "UNZ+1+" ++ fmtFull ts].map (· ++ S "'"))) = .ok pd ∧
      pd.container_details = ⟨some cn, some csz, some st⟩ ∧
      pd.parties.map (fun p => (p.party_qualifier, p.party_identification)) =
        [(S "TO", pl), (S "FR", tr), (S "SH", cu)] ∧
      pd.dates = [⟨S "137", cd ++ ct, S "204"⟩] := by
  have bscd : BodySeg cd := BodySeg_digits hdigcd
  have bsct : BodySeg ct := BodySeg_digits hdigct
  have bsP : BodySeg (S "+") := BodySeg_lit _ (by decide)
  have bsY : BodySeg (fmtYYMMDD ts) := BodySeg_fmtYYMMDD ts
  have bsH : BodySeg (fmtHHMM ts) := BodySeg_fmtHHMM ts
  have bsF : BodySeg (fmtFull ts) := BodySeg_fmtFull ts
  have hb1seg : BodySeg (S "UNB+UNOC:3+" ++ cc ++ S "+" ++ pl ++ S "+" ++
      fmtYYMMDD ts ++ S "+" ++ fmtHHMM ts ++ S "+" ++ fmtFull ts) :=
    (((((((((BodySeg_lit _ (by decide)).append hcc.bodySeg).append bsP).append
      hpl.bodySeg).append bsP).append bsY).append bsP).append bsH).append
      bsP).append bsF
  have hb2seg : BodySeg (S "UNH+1+CODECO:D:96A:UN:EANCOM") :=
    BodySeg_lit _ (by decide)
  have hb3seg : BodySeg (S "BGM+393+" ++ cn ++ S "+9") :=
    ((BodySeg_lit _ (by decide)).append hcn.bodySeg).append
      (BodySeg_lit _ (by decide))
  have hb4seg : BodySeg (S "DTM+137:" ++ cd ++ ct ++ S ":204") :=
    (((BodySeg_lit _ (by decide)).append bscd).append bsct).append
      (BodySeg_lit _ (by decide))
  have hb5seg : BodySeg (S "NAD+TO+" ++ pl) :=
    (BodySeg_lit _ (by decide)).append hpl.bodySeg
  have hb7seg : BodySeg (S "NAD+SH+" ++ cu) :=
    (BodySeg_lit _ (by decide)).append hcu.bodySeg
  have hb8seg : BodySeg (S "LOC+87+" ++ pl) :=
    (BodySeg_lit _ (by decide)).append hpl.bodySeg
  have hb9seg : BodySeg (S "COD+" ++ cn ++ S "+" ++ csz ++ S "+" ++ st) :=
    ((((BodySeg_lit _ (by decide)).append hcn.bodySeg).append bsP).append
      hcsz.bodySeg).append bsP |>.append hst.bodySeg
  have hb10seg : BodySeg (S "UNT+11+1") := BodySeg_lit _ (by decide)
  have hb11seg : BodySeg (S "UNZ+1+" ++ fmtFull ts) :=
    (BodySeg_lit _ (by decide)).append bsF
  have hbodies : ∀ b ∈ [S "UNB+UNOC:3+" ++ cc ++ S "+" ++ pl ++ S "+" ++
      fmtYYMMDD ts ++ S "+" ++ fmtHHMM ts ++ S "+" ++ fmtFull ts,
      S "UNH+1+CODECO:D:96A:UN:EANCOM",
      S "BGM+393+" ++ cn ++ S "+9",
      S "DTM+137:" ++ cd ++ ct ++ S ":204",
      S "NAD+TO+" ++ pl, b6, S "NAD+SH+" ++ cu, S "LOC+87+" ++ pl,
      S "COD+" ++ cn ++ S "+" ++ csz ++ S "+" ++ st,
      S "UNT+11+1", S "UNZ+1+" ++ fmtFull ts], b ≠ [] ∧ BodySeg b := by
    intro b hb
    simp only [List.mem_cons, List.not_mem_nil, or_false] at hb
    rcases hb with rfl | rfl | rfl | rfl | rfl | rfl | rfl | rfl | rfl | rfl | rfl
    · exact ⟨List.cons_ne_nil _ _, hb1seg⟩
    · exact ⟨List.cons_ne_nil _ _, hb2seg⟩
    · exact ⟨List.cons_ne_nil _ _, hb3seg⟩
    · exact ⟨List.cons_ne_nil _ _, hb4seg⟩
    · exact ⟨List.cons_ne_nil _ _, hb5seg⟩
    · exact ⟨hb6ne, hb6seg⟩
    · exact ⟨List.cons_ne_nil _ _, hb7seg⟩
    · exact ⟨List.cons_ne_nil _ _, hb8seg⟩
    · exact ⟨List.cons_ne_nil _ _, hb9seg⟩
    · exact ⟨List.cons_ne_nil _ _, hb10seg⟩
    · exact ⟨List.cons_ne_nil _ _, hb11seg⟩
  have hsp1 : splitCh '+' (S "UNB+UNOC:3+" ++ cc ++ S "+" ++ pl ++ S "+" ++
      fmtYYMMDD ts ++ S "+" ++ fmtHHMM ts ++ S "+" ++ fmtFull ts) =
      S "UNB" :: [S "UNOC:3", cc, pl, fmtYYMMDD ts, fmtHHMM ts, fmtFull ts] := by
    have heq : S "UNB+UNOC:3+" ++ cc ++ S "+" ++ pl ++ S "+" ++ fmtYYMMDD ts ++
        S "+" ++ fmtHHMM ts ++ S "+" ++ fmtFull ts =
        joinSep [('+' : Char)] [S "UNB", S "UNOC:3", cc, pl, fmtYYMMDD ts,
          fmtHHMM ts, fmtFull ts] := by
      simp only [List.append_assoc]; rfl
    rw [heq]
    refine splitCh_joinSep '+' _ ?_ (by simp)
    intro p hp
    simp only [List.mem_cons, List.not_mem_nil, or_false] at hp
    rcases hp with rfl | rfl | rfl | rfl | rfl | rfl | rfl
    · decide
    · decide
    · exact hcc.no_plus
    · exact hpl.no_plus
    · exact fun hm => (fmtYYMMDD_safe ts _ hm).2.1 rfl
    · exact fun hm => (fmtHHMM_safe ts _ hm).2.1 rfl
    · exact fun hm => (fmtFull_safe ts _ hm).2.1 rfl
  have hmk1 : mkSegment (S "UNB+UNOC:3+" ++ cc ++ S "+" ++ pl ++ S "+" ++
      fmtYYMMDD ts ++ S "+" ++ fmtHHMM ts ++ S "+" ++ fmtFull ts) =
      some ⟨S "UNB", [S "UNOC:3", cc, pl, fmtYYMMDD ts, fmtHHMM ts, fmtFull ts]⟩ :=
    mkSegment_parts _ _ _ hsp1 hb1seg.stripEq (List.cons_ne_nil _ _) rfl
      (by decide)
      (by simp [List.map_cons, hcc.stripField, hpl.stripField, bsY.stripEq, bsH.stripEq,
        bsF.stripEq, show stripWs (S "UNOC:3") = S "UNOC:3" from rfl])
  have hmk2 : mkSegment (S "UNH+1+CODECO:D:96A:UN:EANCOM") =
      some ⟨S "UNH", [S "1", S "CODECO:D:96A:UN:EANCOM"]⟩ := rfl
  have hsp3 : splitCh '+' (S "BGM+393+" ++ cn ++ S "+9") =
      S "BGM" :: [S "393", cn, S "9"] := by
    have heq : S "BGM+393+" ++ cn ++ S "+9" =
        joinSep [('+' : Char)] [S "BGM", S "393", cn, S "9"] := by
      simp only [List.append_assoc]; rfl
    rw [heq]
    refine splitCh_joinSep '+' _ ?_ (by simp)
    intro p hp
    simp only [List.mem_cons, List.not_mem_nil, or_false] at hp
    rcases hp with rfl | rfl | rfl | rfl
    · decide
    · decide
    · exact hcn.no_plus
    · decide
  have hmk3 : mkSegment (S "BGM+393+" ++ cn ++ S "+9") =
      some ⟨S "BGM", [S "393", cn, S "9"]⟩ :=
    mkSegment_parts _ _ _ hsp3 hb3seg.stripEq (List.cons_ne_nil _ _) rfl
      (by decide)
      (by simp [List.map_cons, hcn.stripField,
        show stripWs (S "393") = S "393" from rfl,
        show stripWs (S "9") = S "9" from rfl])
  have hsp4 : splitCh '+' (S "DTM+137:" ++ cd ++ ct ++ S ":204") =
      S "DTM" :: [S "137:" ++ cd ++ ct ++ S ":204"] := by
    have h1 : S "DTM+137:" ++ cd ++ ct ++ S ":204" =
        S "DTM" ++ '+' :: (S "137:" ++ cd ++ ct ++ S ":204") := by
      simp only [List.append_assoc]; rfl
    rw [h1, splitCh_append_sep _ _ _ (by decide), splitCh_no_sep]
    intro hm
    rcases List.mem_append.mp hm with h | h
    · rcases List.mem_append.mp h with h | h
      · rcases List.mem_append.mp h with h | h
        · revert h; decide
        · exact no_plus_digits hdigcd h
      · exact no_plus_digits hdigct h
    · revert h; decide
  have hE4seg : BodySeg (S "137:" ++ cd ++ ct ++ S ":204") :=
    (((BodySeg_lit _ (by decide)).append bscd).append bsct).append
      (BodySeg_lit _ (by decide))
  have hmk4 : mkSegment (S "DTM+137:" ++ cd ++ ct ++ S ":204") =
      some ⟨S "DTM", [S "137:" ++ cd ++ ct ++ S ":204"]⟩ :=
    mkSegment_parts _ _ _ hsp4 hb4seg.stripEq (List.cons_ne_nil _ _) rfl
      (by decide)
      (by rw [show [S "137:" ++ cd ++ ct ++ S ":204"].map stripWs =
          [stripWs (S "137:" ++ cd ++ ct ++ S ":204")] from rfl, hE4seg.stripEq])
  have hsp5 : splitCh '+' (S "NAD+TO+" ++ pl) = S "NAD" :: [S "TO", pl] := by
    have heq : S "NAD+TO+" ++ pl =
        joinSep [('+' : Char)] [S "NAD", S "TO", pl] := rfl
    rw [heq]
    refine splitCh_joinSep '+' _ ?_ (by simp)
    intro p hp
    simp only [List.mem_cons, List.not_mem_nil, or_false] at hp
    rcases hp with rfl | rfl | rfl
    · decide
    · decide
    · exact hpl.no_plus
  have hmk5 : mkSegment (S "NAD+TO+" ++ pl) = some ⟨S "NAD", [S "TO", pl]⟩ :=
    mkSegment_parts _ _ _ hsp5 hb5seg.stripEq (List.cons_ne_nil _ _) rfl
      (by decide)
      (by simp [List.map_cons, hpl.stripField, show stripWs (S "TO") = S "TO" from rfl])
  have hsp7 : splitCh '+' (S "NAD+SH+" ++ cu) = S "NAD" :: [S "SH", cu] := by
    have heq : S "NAD+SH+" ++ cu =
        joinSep [('+' : Char)] [S "NAD", S "SH", cu] := rfl
    rw [heq]
    refine splitCh_joinSep '+' _ ?_ (by simp)
    intro p hp
    simp only [List.mem_cons, List.not_mem_nil, or_false] at hp
    rcases hp with rfl | rfl | rfl
    · decide
    · decide
    · exact hcu.no_plus
  have hmk7 : mkSegment (S "NAD+SH+" ++ cu) = some ⟨S "NAD", [S "SH", cu]⟩ :=
    mkSegment_parts _ _ _ hsp7 hb7seg.stripEq (List.cons_ne_nil _ _) rfl
      (by decide)
      (by simp [List.map_cons, hcu.stripField, show stripWs (S "SH") = S "SH" from rfl])
  have hsp8 : splitCh '+' (S "LOC+87+" ++ pl) = S "LOC" :: [S "87", pl] := by
    have heq : S "LOC+87+" ++ pl =
        joinSep [('+' : Char)] [S "LOC", S "87", pl] := rfl
    rw [heq]
    refine splitCh_joinSep '+' _ ?_ (by simp)
    intro p hp
    simp only [List.mem_cons, List.not_mem_nil, or_false] at hp
    rcases hp with rfl | rfl | rfl
    · decide
    · decide
    · exact hpl.no_plus
  have hmk8 : mkSegment (S "LOC+87+" ++ pl) = some ⟨S "LOC", [S "87", pl]⟩ :=
    mkSegment_parts _ _ _ hsp8 hb8seg.stripEq (List.cons_ne_nil _ _) rfl
      (by decide)
      (by simp [List.map_cons, hpl.stripField, show stripWs (S "87") = S "87" from rfl])
  have hsp9 : splitCh '+' (S "COD+" ++ cn ++ S "+" ++ csz ++ S "+" ++ st) =
      S "COD" :: [cn, csz, st] := by
    have heq : S "COD+" ++ cn ++ S "+" ++ csz ++ S "+" ++ st =
        joinSep [('+' : Char)] [S "COD", cn, csz, st] := by
      simp only [List.append_assoc]; rfl
    rw [heq]
    refine splitCh_joinSep '+' _ ?_ (by simp)
    intro p hp
    simp only [List.mem_cons, List.not_mem_nil, or_false] at hp
    rcases hp with rfl | rfl | rfl | rfl
    · decide
    · exact hcn.no_plus
    · exact hcsz.no_plus
    · exact hst.no_plus
  have hmk9 : mkSegment (S "COD+" ++ cn ++ S "+" ++ csz ++ S "+" ++ st) =
      some ⟨S "COD", [cn, csz, st]⟩ :=
    mkSegment_parts _ _ _ hsp9 hb9seg.stripEq (List.cons_ne_nil _ _) rfl
      (by decide)
      (by simp [List.map_cons, hcn.stripField, hcsz.stripField, hst.stripField])
  have hmk10 : mkSegment (S "UNT+11+1") = some ⟨S "UNT", [S "11", S "1"]⟩ := rfl
  have hsp11 : splitCh '+' (S "UNZ+1+" ++ fmtFull ts) =
      S "UNZ" :: [S "1", fmtFull ts] := by
    have heq : S "UNZ+1+" ++ fmtFull ts =
        joinSep [('+' : Char)] [S "UNZ", S "1", fmtFull ts] := rfl
    rw [heq]
    refine splitCh_joinSep '+' _ ?_ (by simp)
    intro p hp
    simp only [List.mem_cons, List.not_mem_nil, or_false] at hp
    rcases hp with rfl | rfl | rfl
    · decide
    · decide
    · exact fun hm => (fmtFull_safe ts _ hm).2.1 rfl
  have hmk11 : mkSegment (S "UNZ+1+" ++ fmtFull ts) =
      some ⟨S "UNZ", [S "1", fmtFull ts]⟩ :=
    mkSegment_parts _ _ _ hsp11 hb11seg.stripEq (List.cons_ne_nil _ _) rfl
      (by decide)
      (by simp [List.map_cons, bsF.stripEq, show stripWs (S "1") = S "1" from rfl])
  have hfm : ([S "UNB+UNOC:3+" ++ cc ++ S "+" ++ pl ++ S "+" ++ fmtYYMMDD ts ++
      S "+" ++ fmtHHMM ts ++ S "+" ++ fmtFull ts,
      S "UNH+1+CODECO:D:96A:UN:EANCOM",
      S "BGM+393+" ++ cn ++ S "+9",
      S "DTM+137:" ++ cd ++ ct ++ S ":204",
      S "NAD+TO+" ++ pl, b6, S "NAD+SH+" ++ cu, S "LOC+87+" ++ pl,
      S "COD+" ++ cn ++ S "+" ++ csz ++ S "+" ++ st,
      S "UNT+11+1", S "UNZ+1+" ++ fmtFull ts]).filterMap mkSegment =
      [⟨S "UNB", [S "UNOC:3", cc, pl, fmtYYMMDD ts, fmtHHMM ts, fmtFull ts]⟩,
       ⟨S "UNH", [S "1", S "CODECO:D:96A:UN:EANCOM"]⟩,
       ⟨S "BGM", [S "393", cn, S "9"]⟩,
       ⟨S "DTM", [S "137:" ++ cd ++ ct ++ S ":204"]⟩,
       ⟨S "NAD", [S "TO", pl]⟩, ⟨S "NAD", e6⟩, ⟨S "NAD", [S "SH", cu]⟩,
       ⟨S "LOC", [S "87", pl]⟩, ⟨S "COD", [cn, csz, st]⟩,
       ⟨S "UNT", [S "11", S "1"]⟩, ⟨S "UNZ", [S "1", fmtFull ts]⟩] := by
    simp only [List.filterMap_cons, hmk1, hmk2, hmk3, hmk4, hmk5, hb6mk, hmk7,
      hmk8, hmk9, hmk10, hmk11, List.filterMap_nil]
  refine ⟨parseSegments
      [⟨S "UNB", [S "UNOC:3", cc, pl, fmtYYMMDD ts, fmtHHMM ts, fmtFull ts]⟩,
       ⟨S "UNH", [S "1", S "CODECO:D:96A:UN:EANCOM"]⟩,
       ⟨S "BGM", [S "393", cn, S "9"]⟩,
       ⟨S "DTM", [S "137:" ++ cd ++ ct ++ S ":204"]⟩,
       ⟨S "NAD", [S "TO", pl]⟩, ⟨S "NAD", e6⟩, ⟨S "NAD", [S "SH", cu]⟩,
       ⟨S "LOC", [S "87", pl]⟩, ⟨S "COD", [cn, csz, st]⟩,
       ⟨S "UNT", [S "11", S "1"]⟩, ⟨S "UNZ", [S "1", fmtFull ts]⟩],
    ?_, ?_, ?_, ?_⟩
  · simp only [parse_edi_message]
    rw [splitIntoSegments_join _ (by simp) hbodies, hfm]
    rw [if_neg (by simp)]
  · rfl
  · rw [← hq6, ← hid6]
    rfl
  · have hE4 : splitCh ':' (S "137:" ++ cd ++ ct ++ S ":204") =
        [S "137", cd ++ ct, S "204"] := by
      have h1 : S "137:" ++ cd ++ ct ++ S ":204" =
          S "137" ++ ':' :: ((cd ++ ct) ++ ':' :: S "204") := by
        simp only [List.append_assoc]; rfl
      rw [h1, splitCh_append_sep _ _ _ (by decide),
        splitCh_append_sep _ _ _ (fun hm => by
          rcases List.mem_append.mp hm with h | h
          · exact no_colon_digits hdigcd h
          · exact no_colon_digits hdigct h),
        splitCh_no_sep _ _ (by decide)]
    have hne4 : (S "137:" ++ cd ++ ct ++ S ":204") ≠ [] := by
      intro h
      rcases List.append_eq_nil.mp h with ⟨-, h2⟩
      exact absurd h2 (by decide)
    have hd : mkDate ⟨S "DTM", [S "137:" ++ cd ++ ct ++ S ":204"]⟩ =
        ⟨S "137", cd ++ ct, S "204"⟩ := by
      simp only [mkDate, getCompN, getEltN]
      rw [show ([S "137:" ++ cd ++ ct ++ S ":204"].getD 0 [] : List Char) =
        S "137:" ++ cd ++ ct ++ S ":204" from rfl]
      rw [if_neg hne4, hE4]
      rfl
    rw [← hd]
    rfl

/-- Unfolding of the encoder once the concatenated timestamp parses. -/
theorem map_xml_to_codeco_ok (r : XmlRecord) (ts : DT)
    (h : strptime14 (pyStr (itemGet r (·.created_date)) ++
      pyStr (itemGet r (·.created_time))) = some ts) :
    map_xml_to_codeco r = .ok (joinSep (S "\n") (codecoSegmentList r ts)) := by
  unfold map_xml_to_codeco
  rw [h]

/-- Claim C1 (round trip, descriptive profile): encoding a well-formed
record with `map_xml_to_codeco` and decoding the resulting text with
`parse_edi_message` recovers the container number, size and status in
`container_details`, the three NAD party identifications (`TO` = plant /
yard id, `FR` = transporter, `SH` = customer / client) exactly, and a
single DTM date whose `date_time` is the same 14-digit concatenation of
the created date and created time. -/
theorem claim_C1 (cc pl cu tr cn csz st cd ct : List Char)
    (wb vn cb : Option (List Char))
    (hcc : FieldOk cc) (hpl : FieldOk pl) (hcu : FieldOk cu)
    (htr : FieldOk tr) (hcn : FieldOk cn) (hcsz : FieldOk csz)
    (hst : FieldOk st)
    (hts : (strptime14 (cd ++ ct)).isSome = true) :
    ∃ txt pd,
      map_xml_to_codeco ⟨some ⟨some cc, some pl, some cu⟩,
          some ⟨wb, some tr, some cn, some csz, some st, vn,
            some cd, some ct, cb⟩⟩ = .ok txt ∧
      parse_edi_message txt = .ok pd ∧
      pd.container_details = ⟨some cn, some csz, some st⟩ ∧
      pd.parties.map (fun p => (p.party_qualifier, p.party_identification)) =
        [(S "TO", pl), (S "FR", tr), (S "SH", cu)] ∧
      pd.dates = [⟨S "137", cd ++ ct, S "204"⟩] := by
  obtain ⟨ts, hts2⟩ := Option.isSome_iff_exists.mp hts
  have hcond : (cd ++ ct).length = 14 ∧ (cd ++ ct).all Char.isDigit = true := by
    by_contra hcon
    unfold strptime14 at hts2
    rw [if_neg hcon] at hts2
    exact Option.noConfusion hts2
  have hdig : ∀ c ∈ cd ++ ct, c.isDigit = true := by
    intro c hc
    exact List.all_eq_true.mp hcond.2 c hc
  have hdigcd : ∀ c ∈ cd, c.isDigit = true :=
    fun c hc => hdig c (List.mem_append.mpr (Or.inl hc))
  have hdigct : ∀ c ∈ ct, c.isDigit = true :=
    fun c hc => hdig c (List.mem_append.mpr (Or.inr hc))
  cases tr with
  | nil =>
    obtain ⟨pd, hp, hc, hpart, hd⟩ :=
      roundtrip_core cc pl cu [] cn csz st cd ct ts hcc hpl hcu hcn hcsz hst
        hdigcd hdigct (S "NAD+FR+") [S "FR", []]
        (by decide) (BodySeg_lit _ (by decide)) rfl rfl rfl
    have hlist : codecoSegmentList ⟨some ⟨some cc, some pl, some cu⟩,
        some ⟨wb, some [], some cn, some csz, some st, vn,
          some cd, some ct, cb⟩⟩ ts =
        [S "UNB+UNOC:3+" ++ cc ++ S "+" ++ pl ++ S "+" ++ fmtYYMMDD ts ++ S "+"
            ++ fmtHHMM ts ++ S "+" ++ fmtFull ts,
          S "UNH+1+CODECO:D:96A:UN:EANCOM",
          S "BGM+393+" ++ cn ++ S "+9",
          S "DTM+137:" ++ cd ++ ct ++ S ":204",
          S "NAD+TO+" ++ pl,
          S "NAD+FR+",
          S "NAD+SH+" ++ cu,
          S "LOC+87+" ++ pl,
          S "COD+" ++ cn ++ S "+" ++ csz ++ S "+" ++ st,
          S "UNT+11+1",
          S "UNZ+1+" ++ fmtFull ts].map (· ++ S "\x27") := by
      show [S "UNB+UNOC:3+" ++ cc ++ S "+" ++ pl ++ S "+" ++ fmtYYMMDD ts ++
          S "+" ++ fmtHHMM ts ++ S "+" ++ fmtFull ts ++ S "\x27",
        S "UNH+1+CODECO:D:96A:UN:EANCOM\x27",
        S "BGM+393+" ++ cn ++ S "+9\x27",
        S "DTM+137:" ++ cd ++ ct ++ S ":204\x27",
        S "NAD+TO+" ++ pl ++ S "\x27",
        S "NAD+FR+\x27",
        S "NAD+SH+" ++ cu ++ S "\x27",
        S "LOC+87+" ++ pl ++ S "\x27",
        S "COD+" ++ cn ++ S "+" ++ csz ++ S "+" ++ st ++ S "\x27",
        S "UNT+11+1\x27",
        S "UNZ+1+" ++ fmtFull ts ++ S "\x27"] = _
      simp only [List.map_cons, List.map_nil, List.append_assoc]
      rfl
    refine ⟨_, pd, ?_, hp, hc, hpart, hd⟩
    exact (map_xml_to_codeco_ok ⟨some ⟨some cc, some pl, some cu⟩,
        some ⟨wb, some [], some cn, some csz, some st, vn,
          some cd, some ct, cb⟩⟩ ts hts2).trans
      (congrArg (fun l => (Except.ok (joinSep (S "\n") l) :
        Except (List Char) (List Char))) hlist)
  | cons a tl =>
    have hb6seg : BodySeg (S "NAD+FR+" ++ (a :: tl) ++ S "++" ++ (a :: tl)) :=
      (((BodySeg_lit _ (by decide)).append htr.bodySeg).append
        (BodySeg_lit _ (by decide))).append htr.bodySeg
    have hsp6 : splitCh '+' (S "NAD+FR+" ++ (a :: tl) ++ S "++" ++ (a :: tl)) =
        S "NAD" :: [S "FR", a :: tl, [], a :: tl] := by
      have heq : S "NAD+FR+" ++ (a :: tl) ++ S "++" ++ (a :: tl) =
          joinSep [('+' : Char)] [S "NAD", S "FR", a :: tl, [], a :: tl] := by
        simp only [List.append_assoc]; rfl
      rw [heq]
      refine splitCh_joinSep '+' _ ?_ (by simp)
      intro p hp
      simp only [List.mem_cons, List.not_mem_nil, or_false] at hp
      rcases hp with rfl | rfl | rfl | rfl | rfl
      · decide
      · decide
      · exact htr.no_plus
      · decide
      · exact htr.no_plus
    have hmk6 : mkSegment (S "NAD+FR+" ++ (a :: tl) ++ S "++" ++ (a :: tl)) =
        some ⟨S "NAD", [S "FR", a :: tl, [], a :: tl]⟩ :=
      mkSegment_parts _ _ _ hsp6 hb6seg.stripEq (List.cons_ne_nil _ _) rfl
        (by decide)
        (by simp [List.map_cons, htr.stripField,
          show stripWs (S "FR") = S "FR" from rfl,
          show stripWs ([] : List Char) = [] from rfl])
    obtain ⟨pd, hp, hc, hpart, hd⟩ :=
      roundtrip_core cc pl cu (a :: tl) cn csz st cd ct ts hcc hpl hcu hcn
        hcsz hst hdigcd hdigct
        (S "NAD+FR+" ++ (a :: tl) ++ S "++" ++ (a :: tl))
        [S "FR", a :: tl, [], a :: tl]
        (List.cons_ne_nil _ _) hb6seg hmk6 rfl rfl
    have hlist : codecoSegmentList ⟨some ⟨some cc, some pl, some cu⟩,
        some ⟨wb, some (a :: tl), some cn, some csz, some st, vn,
          some cd, some ct, cb⟩⟩ ts =
        [S "UNB+UNOC:3+" ++ cc ++ S "+" ++ pl ++ S "+" ++ fmtYYMMDD ts ++ S "+"
            ++ fmtHHMM ts ++ S "+" ++ fmtFull ts,
          S "UNH+1+CODECO:D:96A:UN:EANCOM",
          S "BGM+393+" ++ cn ++ S "+9",
          S "DTM+137:" ++ cd ++ ct ++ S ":204",
          S "NAD+TO+" ++ pl,
          S "NAD+FR+" ++ (a :: tl) ++ S "++" ++ (a :: tl),
          S "NAD+SH+" ++ cu,
          S "LOC+87+" ++ pl,
          S "COD+" ++ cn ++ S "+" ++ csz ++ S "+" ++ st,
          S "UNT+11+1",
          S "UNZ+1+" ++ fmtFull ts].map (· ++ S "\x27") := by
      show [S "UNB+UNOC:3+" ++ cc ++ S "+" ++ pl ++ S "+" ++ fmtYYMMDD ts ++
          S "+" ++ fmtHHMM ts ++ S "+" ++ fmtFull ts ++ S "\x27",
        S "UNH+1+CODECO:D:96A:UN:EANCOM\x27",
        S "BGM+393+" ++ cn ++ S "+9\x27",
        S "DTM+137:" ++ cd ++ ct ++ S ":204\x27",
        S "NAD+TO+" ++ pl ++ S "\x27",
        S "NAD+FR+" ++ (a :: tl) ++ S "++" ++ (a :: tl) ++ S "\x27",
        S "NAD+SH+" ++ cu ++ S "\x27",
        S "LOC+87+" ++ pl ++ S "\x27",
        S "COD+" ++ cn ++ S "+" ++ csz ++ S "+" ++ st ++ S "\x27",
        S "UNT+11+1\x27",
        S "UNZ+1+" ++ fmtFull ts ++ S "\x27"] = _
      simp only [List.map_cons, List.map_nil, List.append_assoc]
      rfl
    refine ⟨_, pd, ?_, hp, hc, hpart, hd⟩
    exact (map_xml_to_codeco_ok ⟨some ⟨some cc, some pl, some cu⟩,
        some ⟨wb, some (a :: tl), some cn, some csz, some st, vn,
          some cd, some ct, cb⟩⟩ ts hts2).trans
      (congrArg (fun l => (Except.ok (joinSep (S "\n") l) :
        Except (List Char) (List Char))) hlist)

/-- Witness for C1: the round trip at the concrete descriptive scenario
record, with every hypothesis discharged by evaluation. -/
theorem claim_C1_witness :
    ∃ txt pd,
      map_xml_to_codeco ⟨some ⟨some (S "CIABJ31"), some (S "419101"),
          some (S "0001052069")⟩,
          some ⟨some (S "244191001345"), some (S "PROPRE MOYEN"),
            some (S "PCIU9507070"), some (S "40"), some (S "01"),
            some (S "028-AA-01"), some (S "20240425"), some (S "040011"),
            some (S "HCIHABIBS")⟩⟩ = .ok txt ∧
      parse_edi_message txt = .ok pd ∧
      pd.container_details = ⟨some (S "PCIU9507070"), some (S "40"),
        some (S "01")⟩ ∧
      pd.parties.map (fun p => (p.party_qualifier, p.party_identification)) =
        [(S "TO", S "419101"), (S "FR", S "PROPRE MOYEN"),
         (S "SH", S "0001052069")] ∧
      pd.dates = [⟨S "137", S "20240425" ++ S "040011", S "204"⟩] :=
  claim_C1 (S "CIABJ31") (S "419101") (S "0001052069") (S "PROPRE MOYEN")
    (S "PCIU9507070") (S "40") (S "01") (S "20240425") (S "040011")
    (some (S "244191001345")) (some (S "028-AA-01")) (some (S "HCIHABIBS"))
    (by decide) (by decide) (by decide) (by decide) (by decide) (by decide)
    (by decide) rfl

/-- Claim C4 (code bug): in `_map_edi_data_to_xml_structure` the
expression `location_code or terminal_operator.get(...) if
terminal_operator else ''` parses as
`(location_code or ...) if terminal_operator else ''`, so a message with
a LOC 87 location and no NAD `TO` party yields an empty `yardId` instead
of the LOC identification; the LOC value is only consulted when a NAD
`TO` party is present. -/
theorem claim_C4 :
    (mapEdiDataToXmlStructure locOnlyParsed sampleNowM).yardId = [] ∧
    (mapEdiDataToXmlStructure locOnlyParsed sampleNowM).yardId ≠ S "YARD1" ∧
    (mapEdiDataToXmlStructure locAndToParsed sampleNowM).yardId = S "YARD1" := by
  refine ⟨?_, ?_, ?_⟩ <;> decide

end Codeco
